import Mathlib

/-!
# DatyreDB storage engine — verification of the specification claims

Shallow embedding of the storage-engine kernel of DatyreDB
(`src/internal/storage/{page,disk_manager,buffer_pool,wal,checkpoint}.{hpp,cpp}`)
and proofs settling the claims C1–C10.

Machine integers are modelled as `Nat` with explicit `% 2^w` where the C++
performs a narrowing conversion; byte buffers are `List Nat` whose elements
are byte values.  File-system and OS failures that the C++ observes through
stream state are modelled, where a claim needs them, by a boolean oracle
passed to the operation.
-/

namespace DatyreDB

/-! ## CRC32 (page.cpp / wal.cpp, anonymous namespace)

Both translation units define the same table-driven reflected CRC32 with
polynomial 0xEDB88320, initial value 0xFFFFFFFF and final XOR 0xFFFFFFFF.
`crc32TableEntry i` is `CRC32_TABLE[i]` from `generate_crc32_table`. -/

/-- One bit step of the table generator: `crc = (crc >> 1) ^ 0xEDB88320`
if the low bit was set, else `crc >> 1`. -/
def crc32Round (crc : Nat) : Nat :=
  if crc % 2 = 1 then (crc / 2) ^^^ 0xEDB88320 else crc / 2

/-- `CRC32_TABLE[i]`: eight rounds applied to `i`. -/
def crc32TableEntry (i : Nat) : Nat := crc32Round^[8] i

/-- One byte update: `crc = TABLE[(crc ^ byte) & 0xFF] ^ (crc >> 8)`. -/
def crc32Update (crc b : Nat) : Nat :=
  crc32TableEntry ((crc ^^^ b) % 256) ^^^ (crc / 256)

/-- `compute_crc32(data, length)`: fold the byte updates from 0xFFFFFFFF,
then XOR the result with 0xFFFFFFFF. -/
def compute_crc32 (bytes : List Nat) : Nat :=
  (bytes.foldl crc32Update 0xFFFFFFFF) ^^^ 0xFFFFFFFF

/-! ## Page (page.hpp / page.cpp, types.hpp)

A page image is its full 4096-byte content, header included.  The packed
`PageHeader` layout puts `page_id` at offset 0 (4 bytes), `page_lsn` at 4
(8 bytes), `free_space` at 12 (2), `flags` at 14 (2), `checksum` at 16 (4),
`reserved` at 20 (4); `PageHeader::SIZE = 24`. -/

def PAGE_SIZE : Nat := 4096
def PAGE_HEADER_SIZE : Nat := 24
def INVALID_PAGE_ID : Nat := 2 ^ 32 - 1
def CHECKSUM_OFFSET : Nat := 16

/-- Little-endian byte image of `v`, `n` bytes wide (how `memcpy` lays a
fixed-width little-endian integer into a buffer). -/
def writeLE (v : Nat) : Nat → List Nat
  | 0 => []
  | n + 1 => v % 256 :: writeLE (v / 256) n

/-- Read a little-endian integer back from a byte list. -/
def fromLEBytes : List Nat → Nat
  | [] => 0
  | b :: bs => b + 256 * fromLEBytes bs

/-- Read the `n`-byte little-endian field at offset `off` of a buffer. -/
def readLE (data : List Nat) (off n : Nat) : Nat :=
  fromLEBytes ((data.drop off).take n)

/-- Overwrite the bytes of `data` starting at `off` with `bs`. -/
def setBytes (data : List Nat) (off : Nat) (bs : List Nat) : List Nat :=
  data.take off ++ bs ++ data.drop (off + bs.length)

/-- `Page::compute_checksum()`: CRC32 over the page bytes, *skipping* the
four checksum bytes at offsets 16..19 (`if (i >= checksum_offset && i <
checksum_offset + sizeof(uint32_t)) continue;`). -/
def pageComputeChecksum (data : List Nat) : Nat :=
  (data.enum.foldl
    (fun crc p =>
      if CHECKSUM_OFFSET ≤ p.1 ∧ p.1 < CHECKSUM_OFFSET + 4 then crc
      else crc32Update crc p.2)
    0xFFFFFFFF) ^^^ 0xFFFFFFFF

/-- The stored checksum field: bytes 16..19, little-endian. -/
def pageStoredChecksum (data : List Nat) : Nat := readLE data CHECKSUM_OFFSET 4

/-- `Page::verify_checksum()`: computed checksum equals the stored field. -/
def pageVerifyChecksum (data : List Nat) : Bool :=
  pageComputeChecksum data == pageStoredChecksum data

/-- `Page::update_checksum()`: store the computed checksum in the header. -/
def pageUpdateChecksum (data : List Nat) : List Nat :=
  setBytes data CHECKSUM_OFFSET (writeLE (pageComputeChecksum data) 4)

/-- Modelled from the spec (claim C1's reading): CRC32 over the full page
with the four checksum bytes *replaced by zero* rather than skipped. -/
def pageChecksumSpecZeroed (data : List Nat) : Nat :=
  compute_crc32 (data.enum.map
    (fun p => if CHECKSUM_OFFSET ≤ p.1 ∧ p.1 < CHECKSUM_OFFSET + 4 then 0 else p.2))

/-- The all-zero 4096-byte page image. -/
def zeroPage : List Nat := List.replicate PAGE_SIZE 0

/-! ### C1

Concrete CRC values over thousands of bytes cannot be obtained by a single
kernel reduction (the evaluation is too deep), so the all-zero-page values
are established through a chain of bounded-depth chunk lemmas. -/

/-- A fold that skips the elements satisfying `P` equals the fold over the
filtered list. -/
theorem foldl_skip_eq_foldl_filter (P : Nat × Nat → Prop) [DecidablePred P]
    (l : List (Nat × Nat)) (init : Nat) :
    l.foldl (fun crc p => if P p then crc else crc32Update crc p.2) init =
      ((l.filter (fun p => !decide (P p))).map Prod.snd).foldl crc32Update init := by
  induction l generalizing init with
  | nil => rfl
  | cons a l ih =>
      by_cases h : P a <;>
        simp [List.foldl_cons, List.filter_cons, h, ih]

/-- `Page::compute_checksum()` as CRC over the byte list with offsets
16..19 removed (shared helper; the C1 theorem restates it). -/
theorem pageChecksum_eq_crc_filter (data : List Nat) :
    pageComputeChecksum data =
      compute_crc32 ((data.enum.filter
        (fun p => !decide (CHECKSUM_OFFSET ≤ p.1 ∧ p.1 < CHECKSUM_OFFSET + 4))).map
          Prod.snd) := by
  unfold pageComputeChecksum compute_crc32
  rw [foldl_skip_eq_foldl_filter
    (fun p => CHECKSUM_OFFSET ≤ p.1 ∧ p.1 < CHECKSUM_OFFSET + 4)]

/-- One CRC update with a zero byte. -/
def crcZeroStep (c : Nat) : Nat := crc32Update c 0

theorem foldl_crc_replicate_zero (n : Nat) :
    ∀ c, (List.replicate n 0).foldl crc32Update c = crcZeroStep^[n] c := by
  induction n with
  | zero => intro c; rfl
  | succ n ih =>
      intro c
      rw [List.replicate_succ, List.foldl_cons, Function.iterate_succ_apply]
      exact ih _

/-- Checkpoints of the CRC register every 44 zero bytes, starting from
0xFFFFFFFF (93 chunks, 4092 bytes in total). -/
def crcChunkRest : List Nat := [
  0x7CDB99E3,
  0x04BDA7B2,
  0x3A767AE1,
  0xD0AFA190,
  0xAEB91936,
  0xF59F3C5F,
  0xE7770933,
  0x0452B996,
  0x4A59E933,
  0x9DD063C2,
  0x66240BBA,
  0xD185CC09,
  0xCEF6EF97,
  0x3CA46EDD,
  0x57E45088,
  0x2E2C27D3,
  0x374ACDB2,
  0x96CC02C2,
  0x566B827B,
  0x86A07180,
  0x71A9DE0C,
  0xA13AE49E,
  0xE8DA0545,
  0x4CF5B120,
  0x54885FD4,
  0x7B182656,
  0xF42038A9,
  0x8E435739,
  0xB5DF211B,
  0x46237857,
  0x95C81B53,
  0xCF58D1A8,
  0xFD67BFC1,
  0xCDED8D2B,
  0x5F083DF5,
  0x87709CAD,
  0xDD028E3B,
  0x280E08A8,
  0xB52BD1FD,
  0x026755B9,
  0xBB0E671E,
  0x1FBB85BC,
  0xA9653477,
  0xDC320C9D,
  0x5C69FAAC,
  0xD17D7097,
  0xB7480423,
  0x19A8600C,
  0x41FFAD41,
  0xCA31243E,
  0x0C174088,
  0x784B767B,
  0x52BA53BF,
  0x632836B4,
  0x497B7529,
  0xB830E8A0,
  0x896FAD15,
  0x8A73E46B,
  0x3B2B46E7,
  0x6D182D24,
  0x7BBB130C,
  0x4D638F43,
  0xCEAA96F9,
  0xC826DAB3,
  0xAF9DDD3C,
  0x5EA52F0D,
  0xF1B0BA24,
  0xE25FE0E7,
  0xFE1932C3,
  0xFF26222C,
  0x0D8EE11D,
  0xA91E9F68,
  0x440EDB83,
  0xCCE746C1,
  0xF175FD45,
  0x515DAFEA,
  0x47138DCC,
  0x8DF1CA28,
  0xA9E1F36B,
  0xDA141060,
  0xE9D2859F,
  0xA804A964,
  0x616585FF,
  0x8D31BD28,
  0x922DB103,
  0xC0A35AD7,
  0x64D694A3,
  0x6D6203C7,
  0x7E4E5933,
  0xD3C1D4E6,
  0xC23887D1,
  0xC20F7321,
  0x9FC4FB76
]

/-- Check that each adjacent pair of checkpoints is 44 zero-byte CRC
updates apart. -/
def chunkChain : List Nat → Bool
  | a :: b :: rest => (crcZeroStep^[44] a == b) && chunkChain (b :: rest)
  | _ => true

set_option maxRecDepth 100000 in
theorem chunkChain_ok : chunkChain (0xFFFFFFFF :: crcChunkRest) = true := by
  decide

theorem chunkChain_iterate (l : List Nat) : ∀ (a b : Nat),
    chunkChain (a :: l) = true → l.getLast? = some b →
    crcZeroStep^[44 * l.length] a = b := by
  induction l with
  | nil => intro a b _ h2; simp at h2
  | cons c l ih =>
      intro a b h1 h2
      simp only [chunkChain, Bool.and_eq_true, beq_iff_eq] at h1
      obtain ⟨hac, h4⟩ := h1
      cases l with
      | nil =>
          simp only [List.getLast?_singleton, Option.some.injEq] at h2
          subst h2
          simpa using hac
      | cons d l2 =>
          have h2h : (d :: l2).getLast? = some b := by
            rwa [List.getLast?_cons_cons] at h2
          have hrec := ih c b h4 h2h
          have hlen : 44 * (c :: d :: l2).length =
              44 * (d :: l2).length + 44 := by
            simp [List.length_cons]; ring
          rw [hlen, Function.iterate_add_apply, hac]
          exact hrec

theorem crcChunkRest_getLast :
    crcChunkRest.getLast? = some 0x9FC4FB76 := by decide

theorem crcZeroIter4092 : crcZeroStep^[4092] 0xFFFFFFFF = 0x9FC4FB76 :=
  chunkChain_iterate crcChunkRest 0xFFFFFFFF 0x9FC4FB76 chunkChain_ok
    crcChunkRest_getLast

theorem crcZeroChunkTail : crcZeroStep^[4] 0x9FC4FB76 = 0x38E3FFEE := by decide

theorem crcZeroIter4096 : crcZeroStep^[4096] 0xFFFFFFFF = 0x38E3FFEE := by
  have h : (4096 : Nat) = 4 + 4092 := by norm_num
  rw [h, Function.iterate_add_apply, crcZeroIter4092, crcZeroChunkTail]

theorem crc_replicate_zero_4092 :
    compute_crc32 (List.replicate 4092 0) = 0x603B0489 := by
  rw [compute_crc32, foldl_crc_replicate_zero, crcZeroIter4092]
  decide

theorem crc_replicate_zero_4096 :
    compute_crc32 (List.replicate 4096 0) = 0xC71C0011 := by
  rw [compute_crc32, foldl_crc_replicate_zero, crcZeroIter4096]
  decide

/-- `List.enum` of a constant list pairs each index with the constant. -/
theorem enum_replicate (n : Nat) (c : Nat) :
    (List.replicate n c).enum = (List.range n).map (fun i => (i, c)) := by
  rw [List.enum_eq_zip_range]
  simp only [List.length_replicate]
  induction n with
  | zero => rfl
  | succ n ih =>
      rw [List.range_succ, List.replicate_succ']
      rw [List.zip_append (by simp), List.map_append]
      simp [ih]

set_option maxRecDepth 200000 in
theorem range_filter_not_skip_length :
    ((List.range 4096).filter
      (fun i => !decide (CHECKSUM_OFFSET ≤ i ∧ i < CHECKSUM_OFFSET + 4))).length = 4092 := by
  have h : (4096 : Nat) = 20 + 4076 := by norm_num
  rw [h, List.range_add, List.filter_append, List.length_append]
  have h2 : ((List.range 4076).map (fun x => 20 + x)).filter
      (fun i => !decide (CHECKSUM_OFFSET ≤ i ∧ i < CHECKSUM_OFFSET + 4)) =
      (List.range 4076).map (fun x => 20 + x) := by
    apply List.filter_eq_self.mpr
    intro a ha
    obtain ⟨x, _, rfl⟩ := List.mem_map.mp ha
    simp [CHECKSUM_OFFSET]
  rw [h2]
  simp only [List.length_map, List.length_range]
  decide

theorem zeroPage_filter_eq :
    ((zeroPage.enum.filter
      (fun p => !decide (CHECKSUM_OFFSET ≤ p.1 ∧ p.1 < CHECKSUM_OFFSET + 4))).map
        Prod.snd) = List.replicate 4092 0 := by
  have h1 : zeroPage.enum = (List.range 4096).map (fun i => (i, (0 : Nat))) :=
    enum_replicate 4096 0
  rw [h1, List.filter_map, List.map_map]
  have hp : ((fun p : Nat × Nat =>
      !decide (CHECKSUM_OFFSET ≤ p.1 ∧ p.1 < CHECKSUM_OFFSET + 4)) ∘
        (fun i : Nat => (i, (0 : Nat)))) =
      (fun i : Nat => !decide (CHECKSUM_OFFSET ≤ i ∧ i < CHECKSUM_OFFSET + 4)) := rfl
  have hc : (Prod.snd ∘ fun i : Nat => (i, (0 : Nat))) = fun _ : Nat => (0 : Nat) := rfl
  rw [hp, hc, List.map_const', range_filter_not_skip_length]

theorem zeroPage_zeroed_eq :
    (zeroPage.enum.map
      (fun p => if CHECKSUM_OFFSET ≤ p.1 ∧ p.1 < CHECKSUM_OFFSET + 4 then 0 else p.2)) =
      List.replicate 4096 0 := by
  have h1 : zeroPage.enum = (List.range 4096).map (fun i => (i, (0 : Nat))) :=
    enum_replicate 4096 0
  rw [h1, List.map_map]
  have hg : ((fun p : Nat × Nat =>
      if CHECKSUM_OFFSET ≤ p.1 ∧ p.1 < CHECKSUM_OFFSET + 4 then 0 else p.2) ∘
        (fun i : Nat => (i, (0 : Nat)))) =
      (fun i : Nat =>
        if CHECKSUM_OFFSET ≤ i ∧ i < CHECKSUM_OFFSET + 4 then (0 : Nat) else 0) := rfl
  have hz : (fun i : Nat =>
      if CHECKSUM_OFFSET ≤ i ∧ i < CHECKSUM_OFFSET + 4 then (0 : Nat) else 0) =
      fun _ : Nat => (0 : Nat) := by
    funext i
    exact ite_self 0
  rw [hg, hz, List.map_const', List.length_range]

/-- The skip-the-field checksum of the all-zero page. -/
theorem pageComputeChecksum_zeroPage :
    pageComputeChecksum zeroPage = 0x603B0489 := by
  rw [pageChecksum_eq_crc_filter, zeroPage_filter_eq, crc_replicate_zero_4092]

/-- The zero-the-field (spec-worded) checksum of the all-zero page. -/
theorem pageChecksumSpecZeroed_zeroPage :
    pageChecksumSpecZeroed zeroPage = 0xC71C0011 := by
  unfold pageChecksumSpecZeroed
  rw [zeroPage_zeroed_eq, crc_replicate_zero_4096]

/-- C1 (counterexample): on the all-zero page, `compute_checksum()` (which
skips the checksum bytes) differs from the CRC32 of the page image with the
checksum bytes replaced by zero, so the claim's description of
`compute_checksum()` is false on the code. -/
theorem c1_skip_ne_zeroed :
    pageComputeChecksum zeroPage ≠ pageChecksumSpecZeroed zeroPage := by
  rw [pageComputeChecksum_zeroPage, pageChecksumSpecZeroed_zeroPage]
  decide

/-- C1 (amended): `compute_checksum()` is the reflected CRC32 (polynomial
0xEDB88320, init 0xFFFFFFFF, final XOR 0xFFFFFFFF, bytes low-to-high) of
the 4092 bytes obtained by *removing* the four checksum bytes at offsets
16..19 from the page image (not by zeroing them), and `verify_checksum()`
is true iff that value equals the stored checksum field. -/
theorem c1_page_checksum_spec (data : List Nat) :
    pageComputeChecksum data =
      compute_crc32 ((data.enum.filter
        (fun p => !decide (CHECKSUM_OFFSET ≤ p.1 ∧ p.1 < CHECKSUM_OFFSET + 4))).map
          Prod.snd)
    ∧ (pageVerifyChecksum data = true ↔
        pageComputeChecksum data = pageStoredChecksum data) := by
  refine ⟨pageChecksum_eq_crc_filter data, ?_⟩
  unfold pageVerifyChecksum
  exact beq_iff_eq


/-! ## Error codes (types.hpp, `enum class ErrorCode`) -/

inductive ErrorCode where
  | Success | IoError | FileNotFound | PermissionDenied | DiskFull | ReadError
  | WriteError | SyncError | PageNotFound | PageCorrupted | ChecksumMismatch
  | InvalidPageId | PagePinned | BufferPoolFull | NoAvailableFrames
  | FrameNotFound | WalCorrupted | WalFull | InvalidLsn | TransactionAborted
  | DeadlockDetected | CheckpointFailed | RecoveryFailed | InvalidArgument
  | NotImplemented | InternalError
deriving DecidableEq

/-! ## WAL log records (wal.hpp / wal.cpp)

`LogRecordHeader` is packed, 44 bytes, little-endian on disk:
`lsn` at 0 (8 bytes), `txn_id` at 8 (8), `prev_lsn` at 16 (8), `length` at
24 (4), `page_id` at 28 (4), `checksum` at 32 (4), `offset` at 36 (2),
`data_length` at 38 (2), `type` at 40 (1), `reserved[3]` at 41.
Field values are `Nat`; the byte image truncates each field to its width
(`256 ^ n` is the modulus of an `n`-byte field, e.g. `256 ^ 4 = 2 ^ 32`). -/

structure LogRecordHeader where
  lsn : Nat
  txn_id : Nat
  prev_lsn : Nat
  length : Nat
  page_id : Nat
  checksum : Nat
  offset : Nat
  data_length : Nat
  type : Nat
  reserved : List Nat
deriving DecidableEq

def LOG_HEADER_SIZE : Nat := 44

/-- The 44-byte little-endian image of the packed header (`memcpy` of the
struct). -/
def encodeLogHeader (h : LogRecordHeader) : List Nat :=
  writeLE h.lsn 8 ++ writeLE h.txn_id 8 ++ writeLE h.prev_lsn 8 ++
  writeLE h.length 4 ++ writeLE h.page_id 4 ++ writeLE h.checksum 4 ++
  writeLE h.offset 2 ++ writeLE h.data_length 2 ++ writeLE h.type 1 ++
  h.reserved

/-- `memcpy(&record.header, buffer.data(), 44)`: read each field back from
the byte image. -/
def decodeLogHeader (buf : List Nat) : LogRecordHeader where
  lsn := readLE buf 0 8
  txn_id := readLE buf 8 8
  prev_lsn := readLE buf 16 8
  length := readLE buf 24 4
  page_id := readLE buf 28 4
  checksum := readLE buf 32 4
  offset := readLE buf 36 2
  data_length := readLE buf 38 2
  type := readLE buf 40 1
  reserved := (buf.drop 41).take 3

structure LogRecord where
  header : LogRecordHeader
  data : List Nat
deriving DecidableEq

namespace LogRecord

/-- `LogRecord::serialized_size()`: header size plus data size. -/
def serialized_size (r : LogRecord) : Nat := LOG_HEADER_SIZE + r.data.length

/-- `LogRecord::serialize(buffer)`: write the header (with `length` and
`data_length` updated and `checksum` zeroed), then the data, then compute
the CRC32 of the whole buffer and patch it into bytes 32..35. -/
def serialize (r : LogRecord) : List Nat :=
  setBytes
    (encodeLogHeader
      { r.header with
          length := r.serialized_size % 256 ^ 4
          data_length := r.data.length % 256 ^ 2
          checksum := 0 } ++ r.data) 32
    (writeLE (compute_crc32
      (encodeLogHeader
        { r.header with
            length := r.serialized_size % 256 ^ 4
            data_length := r.data.length % 256 ^ 2
            checksum := 0 } ++ r.data)) 4)

/-- `LogRecord::compute_checksum()`: CRC32 of the record's byte image with
only the checksum field zeroed (the stored `length`/`data_length` fields
are used as they are). -/
def compute_checksum (r : LogRecord) : Nat :=
  compute_crc32 (encodeLogHeader { r.header with checksum := 0 } ++ r.data)

/-- `LogRecord::verify_checksum()`. -/
def verify_checksum (r : LogRecord) : Bool :=
  r.compute_checksum == r.header.checksum

/-- `LogRecord::deserialize(buffer)`.  The C++ copies `data_length` bytes
starting at offset 44 with `memcpy` and no bounds check; reading past the
end of the buffer is undefined behaviour there, modelled here by `take`
clipping at the end of the buffer. -/
def deserialize (buf : List Nat) : Except ErrorCode LogRecord :=
  if buf.length < LOG_HEADER_SIZE then .error .WalCorrupted
  else if (decodeLogHeader buf).length > buf.length then .error .WalCorrupted
  else if (LogRecord.mk (decodeLogHeader buf)
      ((buf.drop LOG_HEADER_SIZE).take (decodeLogHeader buf).data_length)).verify_checksum
    then .ok (LogRecord.mk (decodeLogHeader buf)
      ((buf.drop LOG_HEADER_SIZE).take (decodeLogHeader buf).data_length))
  else .error .WalCorrupted

end LogRecord

/-! ### Byte-level helper lemmas -/

theorem writeLE_length (v n : Nat) : (writeLE v n).length = n := by
  induction n generalizing v with
  | zero => rfl
  | succ n ih => simp [writeLE, ih]

theorem fromLEBytes_writeLE (v n : Nat) :
    fromLEBytes (writeLE v n) = v % 256 ^ n := by
  induction n generalizing v with
  | zero => simp [writeLE, fromLEBytes, Nat.mod_one]
  | succ n ih =>
      rw [writeLE, fromLEBytes, ih]
      have hp : (256 : Nat) ^ (n + 1) = 256 * 256 ^ n := by ring
      rw [hp]
      exact Nat.mod_mul.symm

theorem readLE_append_right (xs ys : List Nat) (off n : Nat) :
    readLE (xs ++ ys) (xs.length + off) n = readLE ys off n := by
  unfold readLE
  rw [← List.drop_drop, List.drop_left]

theorem readLE_skip_writeLE (v m : Nat) (rest : List Nat) (off n : Nat) :
    readLE (writeLE v m ++ rest) (m + off) n = readLE rest off n := by
  have h := readLE_append_right (writeLE v m) rest off n
  rwa [writeLE_length] at h

theorem readLE_here (v n : Nat) (rest : List Nat) :
    readLE (writeLE v n ++ rest) 0 n = v % 256 ^ n := by
  unfold readLE
  rw [List.drop_zero, List.take_left' (writeLE_length v n)]
  exact fromLEBytes_writeLE v n


theorem drop_skip_writeLE (v m : Nat) (rest : List Nat) (j : Nat) :
    ((writeLE v m ++ rest).drop (m + j)) = rest.drop j := by
  rw [← List.drop_drop, List.drop_left' (writeLE_length v m)]

theorem take_skip_writeLE (v m : Nat) (rest : List Nat) (j : Nat) :
    ((writeLE v m ++ rest).take (m + j)) = writeLE v m ++ rest.take j := by
  have h := @List.take_append _ (writeLE v m) rest j
  rwa [writeLE_length] at h

theorem encodeLogHeader_length (h : LogRecordHeader)
    (hres : h.reserved.length = 3) : (encodeLogHeader h).length = 44 := by
  simp [encodeLogHeader, writeLE_length, hres]

theorem setBytes_append_at (k : Nat) (xs ys zs bs : List Nat)
    (hx : xs.length = k) (hy : ys.length = bs.length) :
    setBytes (xs ++ (ys ++ zs)) k bs = xs ++ (bs ++ zs) := by
  unfold setBytes
  rw [List.take_left' hx]
  have hd : (xs ++ (ys ++ zs)).drop (k + bs.length) = zs := by
    rw [← List.drop_drop, List.drop_left' hx, List.drop_left' hy]
  rw [hd, List.append_assoc]

/-- Well-formed header: every numeric field fits its wire width and the
reserved blob is the 3 padding bytes. -/
def LogRecordHeader.Wf (h : LogRecordHeader) : Prop :=
  h.lsn < 256 ^ 8 ∧ h.txn_id < 256 ^ 8 ∧ h.prev_lsn < 256 ^ 8 ∧
  h.length < 256 ^ 4 ∧ h.page_id < 256 ^ 4 ∧ h.checksum < 256 ^ 4 ∧
  h.offset < 256 ^ 2 ∧ h.data_length < 256 ^ 2 ∧ h.type < 256 ^ 1 ∧
  h.reserved.length = 3

/-- Decoding an encoded header (followed by anything) recovers each field
modulo its wire width. -/
theorem decode_encode_header (h : LogRecordHeader) (data : List Nat)
    (hres : h.reserved.length = 3) :
    decodeLogHeader (encodeLogHeader h ++ data) =
      { lsn := h.lsn % 256 ^ 8, txn_id := h.txn_id % 256 ^ 8
        prev_lsn := h.prev_lsn % 256 ^ 8, length := h.length % 256 ^ 4
        page_id := h.page_id % 256 ^ 4, checksum := h.checksum % 256 ^ 4
        offset := h.offset % 256 ^ 2, data_length := h.data_length % 256 ^ 2
        type := h.type % 256 ^ 1, reserved := h.reserved } := by
  have hB : encodeLogHeader h ++ data =
      writeLE h.lsn 8 ++ (writeLE h.txn_id 8 ++ (writeLE h.prev_lsn 8 ++
      (writeLE h.length 4 ++ (writeLE h.page_id 4 ++ (writeLE h.checksum 4 ++
      (writeLE h.offset 2 ++ (writeLE h.data_length 2 ++ (writeLE h.type 1 ++
      (h.reserved ++ data))))))))) := by
    simp [encodeLogHeader, List.append_assoc]
  unfold decodeLogHeader
  rw [hB]
  refine LogRecordHeader.mk.injEq .. ▸ ⟨?_, ?_, ?_, ?_, ?_, ?_, ?_, ?_, ?_, ?_⟩
  · exact readLE_here _ 8 _
  · show readLE _ (8 + 0) 8 = _
    rw [readLE_skip_writeLE]
    exact readLE_here _ 8 _
  · show readLE _ (8 + (8 + 0)) 8 = _
    rw [readLE_skip_writeLE, readLE_skip_writeLE]
    exact readLE_here _ 8 _
  · show readLE _ (8 + (8 + (8 + 0))) 4 = _
    rw [readLE_skip_writeLE, readLE_skip_writeLE, readLE_skip_writeLE]
    exact readLE_here _ 4 _
  · show readLE _ (8 + (8 + (8 + (4 + 0)))) 4 = _
    rw [readLE_skip_writeLE, readLE_skip_writeLE, readLE_skip_writeLE,
      readLE_skip_writeLE]
    exact readLE_here _ 4 _
  · show readLE _ (8 + (8 + (8 + (4 + (4 + 0))))) 4 = _
    rw [readLE_skip_writeLE, readLE_skip_writeLE, readLE_skip_writeLE,
      readLE_skip_writeLE, readLE_skip_writeLE]
    exact readLE_here _ 4 _
  · show readLE _ (8 + (8 + (8 + (4 + (4 + (4 + 0)))))) 2 = _
    rw [readLE_skip_writeLE, readLE_skip_writeLE, readLE_skip_writeLE,
      readLE_skip_writeLE, readLE_skip_writeLE, readLE_skip_writeLE]
    exact readLE_here _ 2 _
  · show readLE _ (8 + (8 + (8 + (4 + (4 + (4 + (2 + 0))))))) 2 = _
    rw [readLE_skip_writeLE, readLE_skip_writeLE, readLE_skip_writeLE,
      readLE_skip_writeLE, readLE_skip_writeLE, readLE_skip_writeLE,
      readLE_skip_writeLE]
    exact readLE_here _ 2 _
  · show readLE _ (8 + (8 + (8 + (4 + (4 + (4 + (2 + (2 + 0)))))))) 1 = _
    rw [readLE_skip_writeLE, readLE_skip_writeLE, readLE_skip_writeLE,
      readLE_skip_writeLE, readLE_skip_writeLE, readLE_skip_writeLE,
      readLE_skip_writeLE, readLE_skip_writeLE]
    exact readLE_here _ 1 _
  · show (List.drop (8 + (8 + (8 + (4 + (4 + (4 + (2 + (2 + (1 + 0))))))))) _).take 3
        = h.reserved
    rw [drop_skip_writeLE, drop_skip_writeLE, drop_skip_writeLE,
      drop_skip_writeLE, drop_skip_writeLE, drop_skip_writeLE,
      drop_skip_writeLE, drop_skip_writeLE, drop_skip_writeLE,
      List.drop_zero, List.take_left' hres]

/-! ### CRC32 range: every intermediate value is a 32-bit word -/

theorem crc32Round_lt {c : Nat} (h : c < 2 ^ 32) : crc32Round c < 2 ^ 32 := by
  unfold crc32Round
  split
  · exact Nat.xor_lt_two_pow (Nat.lt_of_le_of_lt (Nat.div_le_self _ _) h) (by norm_num)
  · exact Nat.lt_of_le_of_lt (Nat.div_le_self _ _) h

theorem crc32Round_iterate_lt (n : Nat) : ∀ c, c < 2 ^ 32 → crc32Round^[n] c < 2 ^ 32 := by
  induction n with
  | zero => intro c h; exact h
  | succ n ih =>
      intro c h
      rw [Function.iterate_succ_apply]
      exact ih _ (crc32Round_lt h)

theorem crc32Update_lt (c b : Nat) (h : c < 2 ^ 32) : crc32Update c b < 2 ^ 32 := by
  unfold crc32Update crc32TableEntry
  refine Nat.xor_lt_two_pow (crc32Round_iterate_lt 8 _ ?_) ?_
  · exact Nat.lt_of_lt_of_le (Nat.mod_lt _ (by norm_num)) (by norm_num)
  · exact Nat.lt_of_le_of_lt (Nat.div_le_self _ _) h

theorem compute_crc32_lt (bytes : List Nat) : compute_crc32 bytes < 256 ^ 4 := by
  have h : ∀ init, init < 2 ^ 32 → bytes.foldl crc32Update init < 2 ^ 32 := by
    induction bytes with
    | nil => intro init h; exact h
    | cons b l ih =>
        intro init h
        rw [List.foldl_cons]
        exact ih _ (crc32Update_lt _ _ h)
  have h2 : compute_crc32 bytes < 2 ^ 32 := by
    unfold compute_crc32
    exact Nat.xor_lt_two_pow (h _ (by norm_num)) (by norm_num)
  calc compute_crc32 bytes < 2 ^ 32 := h2
    _ = 256 ^ 4 := by norm_num

/-! ### C3 -/

/-- The checksum that `serialize` stores: CRC32 of the record's byte image
with canonical `length`/`data_length` and a zeroed checksum field. -/
def LogRecord.wire_checksum (r : LogRecord) : Nat :=
  compute_crc32 (encodeLogHeader
    { r.header with
        length := r.serialized_size % 256 ^ 4
        data_length := r.data.length % 256 ^ 2
        checksum := 0 } ++ r.data)

/-- `serialize` produces the byte image of the header with canonical
`length`, `data_length` and the stored wire checksum, followed by the
data. -/
theorem serialize_eq (r : LogRecord) :
    r.serialize =
      encodeLogHeader
        { r.header with
            length := r.serialized_size % 256 ^ 4
            data_length := r.data.length % 256 ^ 2
            checksum := r.wire_checksum } ++ r.data := by
  unfold LogRecord.serialize
  have hshape : ∀ ck : Nat, encodeLogHeader
      { r.header with
          length := r.serialized_size % 256 ^ 4
          data_length := r.data.length % 256 ^ 2
          checksum := ck } ++ r.data =
      (writeLE r.header.lsn 8 ++ (writeLE r.header.txn_id 8 ++
        (writeLE r.header.prev_lsn 8 ++ (writeLE (r.serialized_size % 256 ^ 4) 4 ++
          writeLE r.header.page_id 4)))) ++
      (writeLE ck 4 ++
        (writeLE r.header.offset 2 ++ (writeLE (r.data.length % 256 ^ 2) 2 ++
          (writeLE r.header.type 1 ++ (r.header.reserved ++ r.data))))) := by
    intro ck
    simp [encodeLogHeader, List.append_assoc]
  rw [hshape 0, hshape r.wire_checksum]
  rw [setBytes_append_at 32 _ _ _ _ (by simp [writeLE_length]) (by simp [writeLE_length])]
  have hck : compute_crc32
      ((writeLE r.header.lsn 8 ++ (writeLE r.header.txn_id 8 ++
        (writeLE r.header.prev_lsn 8 ++ (writeLE (r.serialized_size % 256 ^ 4) 4 ++
          writeLE r.header.page_id 4)))) ++
      (writeLE 0 4 ++
        (writeLE r.header.offset 2 ++ (writeLE (r.data.length % 256 ^ 2) 2 ++
          (writeLE r.header.type 1 ++ (r.header.reserved ++ r.data)))))) =
      r.wire_checksum := by
    unfold LogRecord.wire_checksum
    rw [hshape 0]
  rw [hck]

theorem serialize_length (r : LogRecord) (hres : r.header.reserved.length = 3) :
    r.serialize.length = 44 + r.data.length := by
  have h44 := encodeLogHeader_length
    (h := { r.header with
        length := r.serialized_size % 256 ^ 4
        data_length := r.data.length % 256 ^ 2
        checksum := r.wire_checksum }) hres
  rw [serialize_eq r, List.length_append, h44]


/-- The canonical header that `serialize` writes and `deserialize` reads
back, for a record within the wire widths. -/
def LogRecord.roundtrip (r : LogRecord) : LogRecord :=
  ⟨{ r.header with
      length := LOG_HEADER_SIZE + r.data.length
      data_length := r.data.length
      checksum := r.wire_checksum }, r.data⟩

/-- C3 (amended): for every record whose header fields fit their wire
widths and whose data is shorter than 2^16 bytes, deserializing the
serialized bytes succeeds and yields the record with its `length`,
`data_length` and `checksum` header fields replaced by the canonical
values that `serialize` wrote (all other fields and the data unchanged),
and that deserialized record passes `verify_checksum()`.  The original
record `r` itself is recovered exactly only when those three fields were
already canonical. -/
theorem c3_serialize_roundtrip (r : LogRecord) (hwf : r.header.Wf)
    (hdl : r.data.length < 256 ^ 2) :
    LogRecord.deserialize r.serialize = .ok r.roundtrip
    ∧ r.roundtrip.verify_checksum = true := by
  obtain ⟨h1, h2, h3, h4, h5, h6, h7, h8, h9, hres⟩ := hwf
  have h2p : (256 : Nat) ^ 2 = 65536 := by norm_num
  have h4p : (256 : Nat) ^ 4 = 4294967296 := by norm_num
  have hmodl : r.serialized_size % 256 ^ 4 = LOG_HEADER_SIZE + r.data.length := by
    unfold LogRecord.serialized_size
    exact Nat.mod_eq_of_lt (by unfold LOG_HEADER_SIZE at *; omega)
  have hmodd : r.data.length % 256 ^ 2 = r.data.length :=
    Nat.mod_eq_of_lt (by omega)
  have hser : r.serialize = encodeLogHeader r.roundtrip.header ++ r.data := by
    rw [serialize_eq r]
    unfold LogRecord.roundtrip
    rw [hmodl, hmodd]
  have hreseq : r.roundtrip.header.reserved.length = 3 := hres
  have hlen : (encodeLogHeader r.roundtrip.header ++ r.data).length =
      44 + r.data.length := by
    rw [List.length_append, encodeLogHeader_length _ hreseq]
  have hdec : decodeLogHeader (encodeLogHeader r.roundtrip.header ++ r.data) =
      r.roundtrip.header := by
    rw [decode_encode_header _ _ hreseq]
    unfold LogRecord.roundtrip
    have hcrc := compute_crc32_lt (encodeLogHeader
      { r.header with
          length := r.serialized_size % 256 ^ 4
          data_length := r.data.length % 256 ^ 2
          checksum := 0 } ++ r.data)
    refine LogRecordHeader.mk.injEq .. ▸ ⟨?_, ?_, ?_, ?_, ?_, ?_, ?_, ?_, ?_, ?_⟩
    · exact Nat.mod_eq_of_lt h1
    · exact Nat.mod_eq_of_lt h2
    · exact Nat.mod_eq_of_lt h3
    · show (LOG_HEADER_SIZE + r.data.length) % 256 ^ 4 = LOG_HEADER_SIZE + r.data.length
      exact Nat.mod_eq_of_lt (by unfold LOG_HEADER_SIZE at *; omega)
    · exact Nat.mod_eq_of_lt h5
    · show LogRecord.wire_checksum r % 256 ^ 4 = LogRecord.wire_checksum r
      exact Nat.mod_eq_of_lt (compute_crc32_lt _)
    · exact Nat.mod_eq_of_lt h7
    · exact Nat.mod_eq_of_lt hdl
    · exact Nat.mod_eq_of_lt h9
    · rfl
  have hdata : ((encodeLogHeader r.roundtrip.header ++ r.data).drop
      LOG_HEADER_SIZE).take r.roundtrip.header.data_length = r.data := by
    have h44 : (encodeLogHeader r.roundtrip.header).length = LOG_HEADER_SIZE :=
      encodeLogHeader_length _ hreseq
    rw [List.drop_left' h44]
    show r.data.take r.data.length = r.data
    exact List.take_length r.data
  have hver : r.roundtrip.verify_checksum = true := by
    unfold LogRecord.verify_checksum LogRecord.compute_checksum
    show (compute_crc32 (encodeLogHeader
        { r.roundtrip.header with checksum := 0 } ++ r.data) ==
      r.roundtrip.header.checksum) = true
    have hh : ({ r.roundtrip.header with checksum := 0 } : LogRecordHeader) =
        { r.header with
            length := r.serialized_size % 256 ^ 4
            data_length := r.data.length % 256 ^ 2
            checksum := 0 } := by
      unfold LogRecord.roundtrip
      rw [hmodl, hmodd]
    rw [hh]
    show (LogRecord.wire_checksum r == r.roundtrip.header.checksum) = true
    have : r.roundtrip.header.checksum = r.wire_checksum := rfl
    rw [this]
    exact beq_self_eq_true _
  refine ⟨?_, hver⟩
  have hHlen : r.roundtrip.header.length = 44 + r.data.length := rfl
  rw [hser, LogRecord.deserialize, hdec, hdata]
  rw [if_neg (by rw [hlen]; unfold LOG_HEADER_SIZE; omega)]
  rw [if_neg (by rw [hlen, hHlen]; omega)]
  have hverm : (LogRecord.mk r.roundtrip.header r.data).verify_checksum = true := hver
  rw [if_pos hverm]
  rfl


deriving instance DecidableEq for Except

/-- The default-constructed record `LogRecord()`: zero header, no data. -/
def c3DefaultRec : LogRecord := ⟨⟨0, 0, 0, 0, 0, 0, 0, 0, 0, [0, 0, 0]⟩, []⟩

set_option maxRecDepth 40000 in
/-- C3 (counterexample): for the default-constructed record,
`deserialize(serialize(r))` is not `r` (serialize canonicalizes the
`length`, `data_length` and `checksum` header fields, here turning
`length` from 0 into 44), and `r.verify_checksum()` is false (the stored
checksum 0 is not the CRC of the record bytes), so the claim fails as a
statement about every `LogRecord`. -/
theorem c3_default_roundtrip_fails :
    LogRecord.deserialize (LogRecord.serialize c3DefaultRec) ≠ .ok c3DefaultRec
    ∧ c3DefaultRec.verify_checksum = false := by
  constructor
  · decide
  · decide

/-- A sample in-range record for the roundtrip witness. -/
def c3WitnessRec : LogRecord := ⟨⟨1, 2, 3, 4, 5, 6, 7, 8, 9, [10, 11, 12]⟩, [13, 14]⟩

/-- Witness instantiating `c3_serialize_roundtrip` at a concrete record. -/
theorem c3_serialize_roundtrip_witness :
    LogRecord.deserialize (LogRecord.serialize c3WitnessRec) = .ok c3WitnessRec.roundtrip
    ∧ c3WitnessRec.roundtrip.verify_checksum = true :=
  c3_serialize_roundtrip c3WitnessRec
    ⟨by decide, by decide, by decide, by decide, by decide, by decide, by decide,
     by decide, by decide, by decide⟩ (by decide)

/-- A header whose `data_length` (5) is inconsistent with `length − 44`
(= 0), with the matching wire checksum stored. -/
def c4HeaderVals : LogRecordHeader := ⟨0, 0, 0, 44, 0, 0xC57355CE, 0, 5, 0, [0, 0, 0]⟩

/-- The 49-byte buffer carrying that header and 5 data bytes. -/
def c4Buffer : List Nat := encodeLogHeader c4HeaderVals ++ [1, 2, 3, 4, 5]

set_option maxRecDepth 40000 in
/-- C4 (counterexample): this buffer has `data_length ≠ length − 44`, yet
`deserialize` returns a record rather than failing — the consistency
check (c) claimed by the spec does not exist in the code. -/
theorem c4_missing_datalength_check :
    LogRecord.deserialize c4Buffer =
      .ok (LogRecord.mk c4HeaderVals [1, 2, 3, 4, 5])
    ∧ c4HeaderVals.data_length ≠ c4HeaderVals.length - 44 := by
  constructor
  · decide
  · decide


/-- C4 (amended): `deserialize` fails (always with `WalCorrupted`) exactly
when the buffer is shorter than the 44-byte header, or the header's
`length` field exceeds the buffer size, or the recomputed checksum does
not match the stored one; when none of these holds it succeeds.  There is
no check that `data_length` equals `length − 44`. -/
theorem c4_deserialize_error_iff (buf : List Nat) :
    (LogRecord.deserialize buf = .error .WalCorrupted ↔
      buf.length < LOG_HEADER_SIZE ∨ (decodeLogHeader buf).length > buf.length ∨
        (LogRecord.mk (decodeLogHeader buf)
          ((buf.drop LOG_HEADER_SIZE).take
            (decodeLogHeader buf).data_length)).verify_checksum = false)
    ∧ (¬ (buf.length < LOG_HEADER_SIZE ∨ (decodeLogHeader buf).length > buf.length ∨
        (LogRecord.mk (decodeLogHeader buf)
          ((buf.drop LOG_HEADER_SIZE).take
            (decodeLogHeader buf).data_length)).verify_checksum = false) →
      LogRecord.deserialize buf = .ok (LogRecord.mk (decodeLogHeader buf)
        ((buf.drop LOG_HEADER_SIZE).take (decodeLogHeader buf).data_length))) := by
  by_cases hb1 : buf.length < LOG_HEADER_SIZE
  · simp [LogRecord.deserialize, hb1]
  · by_cases hb2 : (decodeLogHeader buf).length > buf.length
    · simp [LogRecord.deserialize, hb1, hb2]
    · by_cases hb3 : (LogRecord.mk (decodeLogHeader buf)
          ((buf.drop LOG_HEADER_SIZE).take
            (decodeLogHeader buf).data_length)).verify_checksum = true
      · simp [LogRecord.deserialize, hb1, hb2, hb3]
      · simp [LogRecord.deserialize, hb1, hb2, hb3]

set_option maxRecDepth 40000 in
/-- Witness instantiating `c4_deserialize_error_iff`'s success case:
a buffer passing only checks (a), (b) and (d) deserializes successfully. -/
theorem c4_deserialize_error_iff_witness :
    LogRecord.deserialize c4Buffer = .ok (LogRecord.mk (decodeLogHeader c4Buffer)
        ((c4Buffer.drop LOG_HEADER_SIZE).take (decodeLogHeader c4Buffer).data_length)) :=
  (c4_deserialize_error_iff c4Buffer).2 (by decide)


/-! ## WriteAheadLog append / rotate (wal.cpp)

The model keeps the bytes written to the currently open segment and the
closed segments; the filesystem writes themselves are assumed to succeed
(`append` surfaces no I/O oracle because claim C5 is about the size
check, which happens before any write). -/

structure WalState where
  segment_size : Nat
  wal_open : Bool
  current_segment_id : Nat
  current_segment_pos : Nat
  current_segment_data : List Nat
  closed_segments : List (Nat × List Nat)
  next_lsn : Nat
  total_size : Nat
deriving DecidableEq

namespace WriteAheadLog

/-- `WriteAheadLog::rotate_segment()`: close the current segment, bump the
segment id, start a new empty segment at position 0. -/
def rotate_segment (s : WalState) : WalState :=
  { s with
      closed_segments :=
        s.closed_segments ++ [(s.current_segment_id, s.current_segment_data)]
      current_segment_id := s.current_segment_id + 1
      current_segment_pos := 0
      current_segment_data := [] }

/-- `WriteAheadLog::append(record)`: assign the next LSN, serialize, rotate
if the record does not fit the current segment, then write the buffer and
advance the position, total size and LSN counter. -/
def append (s : WalState) (r : LogRecord) : Except ErrorCode Nat × WalState :=
  if s.wal_open = false then (.error .IoError, s)
  else if s.current_segment_pos + (LogRecord.serialize
      { r with header := { r.header with lsn := s.next_lsn } }).length >
      s.segment_size then
    (.ok s.next_lsn,
      { rotate_segment s with
          current_segment_data := (rotate_segment s).current_segment_data ++
            LogRecord.serialize { r with header := { r.header with lsn := s.next_lsn } }
          current_segment_pos := (rotate_segment s).current_segment_pos +
            (LogRecord.serialize
              { r with header := { r.header with lsn := s.next_lsn } }).length
          next_lsn := s.next_lsn + 1
          total_size := s.total_size + (LogRecord.serialize
            { r with header := { r.header with lsn := s.next_lsn } }).length })
  else
    (.ok s.next_lsn,
      { s with
          current_segment_data := s.current_segment_data ++
            LogRecord.serialize { r with header := { r.header with lsn := s.next_lsn } }
          current_segment_pos := s.current_segment_pos + (LogRecord.serialize
            { r with header := { r.header with lsn := s.next_lsn } }).length
          next_lsn := s.next_lsn + 1
          total_size := s.total_size + (LogRecord.serialize
            { r with header := { r.header with lsn := s.next_lsn } }).length })

end WriteAheadLog

/-- An empty, open WAL with a 10-byte segment limit. -/
def c5State : WalState :=
  { segment_size := 10, wal_open := true, current_segment_id := 0
    current_segment_pos := 0, current_segment_data := []
    closed_segments := [], next_lsn := 1, total_size := 0 }

/-- A record whose 44-byte serialization exceeds the 10-byte segment. -/
def c5Rec : LogRecord := ⟨⟨0, 0, 0, 0, 0, 0, 0, 0, 0, [0, 0, 0]⟩, []⟩

set_option maxRecDepth 40000 in
/-- C5 (counterexample): appending a record larger than `segment_size`
does NOT return an error: the WAL rotates to a fresh segment and writes
the whole record there, returning the assigned LSN. -/
theorem c5_oversized_append_succeeds :
    (WriteAheadLog.append c5State c5Rec).1 = .ok 1
    ∧ (WriteAheadLog.append c5State c5Rec).2.current_segment_id = 1
    ∧ (WriteAheadLog.append c5State c5Rec).2.current_segment_pos = 44 := by
  refine ⟨by decide, by decide, by decide⟩

/-- C5 (amended): appending a record whose serialized size (44 + data)
exceeds `segment_size` never fails; the WAL rotates (closing the current
segment and bumping the segment id) and writes the whole record at the
start of the fresh segment, whose position then already exceeds
`segment_size`. -/
theorem c5_oversized_append_rotates (s : WalState) (r : LogRecord)
    (hopen : s.wal_open = true)
    (hres : r.header.reserved.length = 3)
    (hbig : 44 + r.data.length > s.segment_size) :
    WriteAheadLog.append s r =
      (.ok s.next_lsn,
        { s with
            closed_segments :=
              s.closed_segments ++ [(s.current_segment_id, s.current_segment_data)]
            current_segment_id := s.current_segment_id + 1
            current_segment_data := LogRecord.serialize
              { r with header := { r.header with lsn := s.next_lsn } }
            current_segment_pos := 44 + r.data.length
            next_lsn := s.next_lsn + 1
            total_size := s.total_size + (44 + r.data.length) }) := by
  have hslen : (LogRecord.serialize
      { r with header := { r.header with lsn := s.next_lsn } }).length =
      44 + r.data.length := serialize_length _ hres
  rw [WriteAheadLog.append]
  rw [if_neg (by rw [hopen]; exact fun h => Bool.noConfusion h)]
  rw [if_pos (by rw [hslen]; omega)]
  simp [WriteAheadLog.rotate_segment, hslen]

/-- Witness instantiating `c5_oversized_append_rotates` at the concrete
10-byte-segment WAL. -/
theorem c5_oversized_append_rotates_witness :
    WriteAheadLog.append c5State c5Rec =
      (.ok c5State.next_lsn,
        { c5State with
            closed_segments := c5State.closed_segments ++
              [(c5State.current_segment_id, c5State.current_segment_data)]
            current_segment_id := c5State.current_segment_id + 1
            current_segment_data := LogRecord.serialize
              { c5Rec with header := { c5Rec.header with lsn := c5State.next_lsn } }
            current_segment_pos := 44 + c5Rec.data.length
            next_lsn := c5State.next_lsn + 1
            total_size := c5State.total_size + (44 + c5Rec.data.length) }) :=
  c5_oversized_append_rotates c5State c5Rec (by decide) (by decide) (by decide)

/-! ## DiskManager::open (disk_manager.cpp, lines 61-64)

Directory creation and file opening are I/O; the page-count computation on
the successfully opened file is `next_page_id = file_size / PAGE_SIZE`,
after which `open` unconditionally succeeds. -/

/-- The tail of `DiskManager::open()` once the data file is open: compute
`next_page_id` from the file size by integer division and return success.
There is no divisibility check. -/
def diskManagerOpen (file_size : Nat) : Except ErrorCode Nat :=
  .ok (file_size / PAGE_SIZE)

/-- C7 (counterexample): a 5000-byte data file (not a multiple of 4096)
does not make `open` fail; it silently truncates to 1 page. -/
theorem c7_open_truncates_5000 :
    diskManagerOpen 5000 = .ok 1 ∧ 5000 % PAGE_SIZE ≠ 0 := by
  constructor
  · decide
  · decide

/-- C7 (amended): `DiskManager::open` computes `next_page_id` as
`file_size / PAGE_SIZE` (integer division, rounding down) and succeeds
even when the file size is not a multiple of `PAGE_SIZE`; trailing
partial-page bytes are silently ignored, not treated as corruption. -/
theorem c7_open_no_corruption_check (file_size : Nat)
    (hnm : file_size % PAGE_SIZE ≠ 0) :
    diskManagerOpen file_size = .ok (file_size / PAGE_SIZE) := rfl

/-- Witness instantiating `c7_open_no_corruption_check` at 5000 bytes. -/
theorem c7_open_no_corruption_check_witness :
    diskManagerOpen 5000 = .ok (5000 / PAGE_SIZE) :=
  c7_open_no_corruption_check 5000 (by decide)


/-! ## DiskManager state (disk_manager.cpp)

The data file is a list of page-sized byte slots; `next_page_id` is the
allocation counter.  Claims about the pool need the write path to be able
to fail, so `write_page` takes the outcome of the stream write as a
boolean (`ok`); extension and reads are modelled as always delivering the
stored bytes. -/

structure DiskState where
  slots : List (List Nat)
  next_page_id : Nat
deriving DecidableEq

namespace DiskManager

/-- `ensure_file_size(page_id)`: extend the file with zero bytes so that
slot `page_id` exists (a freshly extended slot is all zeros). -/
def ensure_file_size (d : DiskState) (page_id : Nat) : DiskState :=
  { d with slots := d.slots ++ List.replicate (page_id + 1 - d.slots.length) zeroPage }

/-- `read_page(id, page)`: range-check against the allocation counter,
read the 4096 bytes into the page, `set_id(id)` (which overwrites header
bytes 0..3 with the id), mark clean, then verify the checksum. -/
def read_page (d : DiskState) (page_id : Nat) : Except ErrorCode (List Nat) :=
  if page_id ≥ d.next_page_id then .error .InvalidPageId
  else if pageVerifyChecksum
      (setBytes (d.slots.getD page_id zeroPage) 0 (writeLE page_id 4)) then
    .ok (setBytes (d.slots.getD page_id zeroPage) 0 (writeLE page_id 4))
  else .error .ChecksumMismatch

/-- `write_page(id, page)`: extend the file if needed, update the page's
checksum in place (a `const_cast` mutation of the caller's page), then
write the 4096 bytes; `ok` is the stream-write outcome. -/
def write_page (d : DiskState) (page_id : Nat) (img : List Nat) (ok : Bool) :
    Except ErrorCode DiskState :=
  if ok then .ok { ensure_file_size d page_id with
      slots := (ensure_file_size d page_id).slots.set page_id (pageUpdateChecksum img) }
  else .error .WriteError

/-- `allocate_page()`: return the counter value, increment it, extend the
file so the new slot exists (extension modelled as succeeding, so the
rollback branch is never taken). -/
def allocate_page (d : DiskState) : Except ErrorCode Nat × DiskState :=
  (.ok d.next_page_id,
    ensure_file_size { d with next_page_id := d.next_page_id + 1 } d.next_page_id)

end DiskManager

/-! ## BufferPool (buffer_pool.hpp / buffer_pool.cpp)

A frame owns one page (id, 4096-byte image, dirty flag, pin count) plus
the Clock-Sweep `referenced` bit.  The page table is an association list
`PageId → FrameId` with unique keys in every reachable state; the
operations return the C++ return value paired with the mutated pool. -/

structure Frame where
  pid : Nat
  pdata : List Nat
  dirty : Bool
  pin_count : Nat
  referenced : Bool
deriving DecidableEq

/-- `Page::reset()` zeroes the page and sets the header's `free_space`
field (offset 12, 2 bytes) to the payload size 4072. -/
def resetPageData : List Nat :=
  setBytes zeroPage 12 (writeLE (PAGE_SIZE - PAGE_HEADER_SIZE) 2)

/-- `Page::reset(new_id)`: reset, then `set_id` (header bytes 0..3). -/
def resetPageDataWithId (id : Nat) : List Nat :=
  setBytes resetPageData 0 (writeLE id 4)

/-- A frame holding a freshly reset page (the state after `evict_frame`
or in a never-used slot). -/
def emptyFrame : Frame := ⟨INVALID_PAGE_ID, resetPageData, false, 0, false⟩

instance : Inhabited Frame := ⟨emptyFrame⟩

structure PoolState where
  pool_size : Nat
  frames : List Frame
  free_list : List Nat
  page_table : List (Nat × Nat)
  clock_hand : Nat
  dirty_count : Nat
  disk : DiskState
deriving DecidableEq

/-- `page_table_.find(page_id)`. -/
def ptLookup (pt : List (Nat × Nat)) (pid : Nat) : Option Nat :=
  (pt.find? (fun e => e.1 == pid)).map Prod.snd

/-- `page_table_.erase(page_id)` (keys are unique in reachable states). -/
def ptErase (pt : List (Nat × Nat)) (pid : Nat) : List (Nat × Nat) :=
  pt.filter (fun e => e.1 != pid)

/-- `page_table_[page_id] = frame_id`. -/
def ptInsert (pt : List (Nat × Nat)) (pid fid : Nat) : List (Nat × Nat) :=
  ptErase pt pid ++ [(pid, fid)]

namespace BufferPool

/-- `BufferPool::evict_frame(frame_id)`: write back if dirty (updating the
page's checksum in place even when the write then fails), and on success
erase the table entry and reset the frame. -/
def evict_frame (ok : Nat → Bool) (s : PoolState) (frame_id : Nat) :
    Except ErrorCode Unit × PoolState :=
  if (s.frames.getD frame_id emptyFrame).dirty then
    match DiskManager.write_page s.disk (s.frames.getD frame_id emptyFrame).pid
        (s.frames.getD frame_id emptyFrame).pdata
        (ok (s.frames.getD frame_id emptyFrame).pid) with
    | .error e =>
        (.error e,
          { s with
              frames := s.frames.set frame_id
                { s.frames.getD frame_id emptyFrame with
                    pdata := pageUpdateChecksum (s.frames.getD frame_id emptyFrame).pdata } })
    | .ok d1 =>
        (.ok (),
          { s with
              disk := d1
              dirty_count := s.dirty_count - 1
              page_table := ptErase s.page_table (s.frames.getD frame_id emptyFrame).pid
              frames := s.frames.set frame_id emptyFrame })
  else
    (.ok (),
      { s with
          page_table := ptErase s.page_table (s.frames.getD frame_id emptyFrame).pid
          frames := s.frames.set frame_id emptyFrame })

/-- The body of `BufferPool::clock_sweep()`: iterate the remaining step
offsets `is` from the fixed base `clock_hand`, skipping empty and pinned
frames, clearing reference bits (second chance), trying the next frame
when an eviction fails, and returning the victim (advancing the clock
hand past it) when one succeeds. -/
def sweep_loop (ok : Nat → Bool) (base : Nat) :
    List Nat → PoolState → Option Nat × PoolState
  | [], s => (none, s)
  | i :: rest, s =>
      if (s.frames.getD ((base + i) % s.pool_size) emptyFrame).pid = INVALID_PAGE_ID then
        sweep_loop ok base rest s
      else if (s.frames.getD ((base + i) % s.pool_size) emptyFrame).pin_count > 0 then
        sweep_loop ok base rest s
      else if (s.frames.getD ((base + i) % s.pool_size) emptyFrame).referenced then
        sweep_loop ok base rest
          { s with
              frames := s.frames.set ((base + i) % s.pool_size)
                { s.frames.getD ((base + i) % s.pool_size) emptyFrame with
                    referenced := false } }
      else
        match evict_frame ok s ((base + i) % s.pool_size) with
        | (.error _, s1) => sweep_loop ok base rest s1
        | (.ok _, s1) =>
            (some ((base + i) % s.pool_size),
              { s1 with clock_hand := ((base + i) % s.pool_size + 1) % s1.pool_size })

/-- `BufferPool::clock_sweep()`: two full passes of the wheel starting at
the clock hand. -/
def clock_sweep (ok : Nat → Bool) (s : PoolState) : Option Nat × PoolState :=
  sweep_loop ok s.clock_hand (List.range s.pool_size ++ List.range s.pool_size) s

/-- `BufferPool::find_victim()`: pop the free list first, else sweep. -/
def find_victim (ok : Nat → Bool) (s : PoolState) : Option Nat × PoolState :=
  match s.free_list with
  | [] => clock_sweep ok s
  | f :: rest => (some f, { s with free_list := rest })

/-- `BufferPool::fetch_page(page_id)`: on a hit pin the frame and set its
reference bit; on a miss find a victim, read the page from disk into it
(returning the frame to the free list if the read fails), and install it
pinned, clean and referenced. Returns the frame id holding the page. -/
def fetch_page (ok : Nat → Bool) (s : PoolState) (page_id : Nat) :
    Except ErrorCode Nat × PoolState :=
  match ptLookup s.page_table page_id with
  | some frame_id =>
      (.ok frame_id,
        { s with
            frames := s.frames.set frame_id
              { s.frames.getD frame_id emptyFrame with
                  pin_count := (s.frames.getD frame_id emptyFrame).pin_count + 1
                  referenced := true } })
  | none =>
      match find_victim ok s with
      | (none, s1) => (.error .NoAvailableFrames, s1)
      | (some frame_id, s1) =>
          match DiskManager.read_page s1.disk page_id with
          | .error e => (.error e, { s1 with free_list := s1.free_list ++ [frame_id] })
          | .ok img =>
              (.ok frame_id,
                { s1 with
                    frames := s1.frames.set frame_id
                      ⟨page_id, img, false, 1, true⟩
                    page_table := ptInsert s1.page_table page_id frame_id })

/-- `BufferPool::new_page()`: allocate a fresh id on disk (extending the
file), then find a frame; if none is available the allocation is NOT
rolled back.  On success the frame holds the reset page, pinned, clean,
referenced. -/
def new_page (ok : Nat → Bool) (s : PoolState) : Except ErrorCode Nat × PoolState :=
  match find_victim ok { s with disk := (DiskManager.allocate_page s.disk).2 } with
  | (none, s1) => (.error .NoAvailableFrames, s1)
  | (some frame_id, s1) =>
      (.ok s.disk.next_page_id,
        { s1 with
            frames := s1.frames.set frame_id
              ⟨s.disk.next_page_id, resetPageDataWithId s.disk.next_page_id,
                false, 1, true⟩
            page_table := ptInsert s1.page_table s.disk.next_page_id frame_id })

/-- `BufferPool::unpin_page(page_id, is_dirty)`. -/
def unpin_page (s : PoolState) (page_id : Nat) (is_dirty : Bool) :
    Except ErrorCode Unit × PoolState :=
  match ptLookup s.page_table page_id with
  | none => (.error .PageNotFound, s)
  | some frame_id =>
      if (s.frames.getD frame_id emptyFrame).pin_count ≤ 0 then
        (.error .InvalidArgument, s)
      else if is_dirty && !(s.frames.getD frame_id emptyFrame).dirty then
        (.ok (),
          { s with
              frames := s.frames.set frame_id
                { s.frames.getD frame_id emptyFrame with
                    pin_count := (s.frames.getD frame_id emptyFrame).pin_count - 1
                    dirty := true }
              dirty_count := s.dirty_count + 1 })
      else
        (.ok (),
          { s with
              frames := s.frames.set frame_id
                { s.frames.getD frame_id emptyFrame with
                    pin_count := (s.frames.getD frame_id emptyFrame).pin_count - 1 } })

/-- `BufferPool::flush_page(page_id)`: nothing to do when the page is not
resident or clean; otherwise write it back (the checksum-in-place update
happens even if the stream write fails) and mark it clean. -/
def flush_page (ok : Nat → Bool) (s : PoolState) (page_id : Nat) :
    Except ErrorCode Unit × PoolState :=
  match ptLookup s.page_table page_id with
  | none => (.ok (), s)
  | some frame_id =>
      if (s.frames.getD frame_id emptyFrame).dirty = false then (.ok (), s)
      else
        match DiskManager.write_page s.disk page_id
            (s.frames.getD frame_id emptyFrame).pdata (ok page_id) with
        | .error e =>
            (.error e,
              { s with
                  frames := s.frames.set frame_id
                    { s.frames.getD frame_id emptyFrame with
                        pdata := pageUpdateChecksum
                          (s.frames.getD frame_id emptyFrame).pdata } })
        | .ok d1 =>
            (.ok (),
              { s with
                  disk := d1
                  frames := s.frames.set frame_id
                    { s.frames.getD frame_id emptyFrame with
                        pdata := pageUpdateChecksum (s.frames.getD frame_id emptyFrame).pdata
                        dirty := false }
                  dirty_count := s.dirty_count - 1 })

/-- `BufferPool::flush_pages(page_ids)`. -/
def flush_pages (ok : Nat → Bool) (s : PoolState) :
    List Nat → Except ErrorCode Unit × PoolState
  | [] => (.ok (), s)
  | pid :: rest =>
      match flush_page ok s pid with
      | (.error e, s1) => (.error e, s1)
      | (.ok _, s1) => flush_pages ok s1 rest

/-- `BufferPool::delete_page(page_id)` (`deallocate_page` is a no-op). -/
def delete_page (s : PoolState) (page_id : Nat) :
    Except ErrorCode Unit × PoolState :=
  match ptLookup s.page_table page_id with
  | none => (.ok (), s)
  | some frame_id =>
      if (s.frames.getD frame_id emptyFrame).pin_count > 0 then
        (.error .PagePinned, s)
      else
        (.ok (),
          { s with
              dirty_count := if (s.frames.getD frame_id emptyFrame).dirty
                then s.dirty_count - 1 else s.dirty_count
              page_table := ptErase s.page_table page_id
              frames := s.frames.set frame_id emptyFrame
              free_list := s.free_list ++ [frame_id] })

end BufferPool

/-- The public buffer-pool operations, for quantifying over histories. -/
inductive PoolOp where
  | fetch (page_id : Nat)
  | newPage
  | unpin (page_id : Nat) (is_dirty : Bool)
  | flushOne (page_id : Nat)
  | flushMany (page_ids : List Nat)
  | del (page_id : Nat)

/-- The state after one operation (the C++ member call's side effect). -/
def applyOp (ok : Nat → Bool) (s : PoolState) : PoolOp → PoolState
  | .fetch pid => (BufferPool.fetch_page ok s pid).2
  | .newPage => (BufferPool.new_page ok s).2
  | .unpin pid d => (BufferPool.unpin_page s pid d).2
  | .flushOne pid => (BufferPool.flush_page ok s pid).2
  | .flushMany pids => (BufferPool.flush_pages ok s pids).2
  | .del pid => (BufferPool.delete_page s pid).2


/-! ### Frame and page-table access lemmas -/

theorem getD_set_ne (l : List Frame) (i j : Nat) (f : Frame) (h : j ≠ i) :
    (l.set i f).getD j emptyFrame = l.getD j emptyFrame := by
  simp [List.getD_eq_getElem?_getD, List.getElem?_set_ne (fun hh => h hh.symm)]

theorem getD_set_self_split (l : List Frame) (i : Nat) (f : Frame) :
    (l.set i f).getD i emptyFrame = if i < l.length then f else emptyFrame := by
  split
  · simp [List.getD_eq_getElem?_getD, List.getElem?_set_self (by assumption)]
  · rename_i hlen
    rw [List.set_eq_of_length_le (by omega)]
    simp [List.getD_eq_getElem?_getD, List.getElem?_eq_none (l := l) (n := i) (by omega)]

theorem getD_of_length_le (l : List Frame) (i : Nat) (h : l.length ≤ i) :
    l.getD i emptyFrame = emptyFrame := by
  simp [List.getD_eq_getElem?_getD, List.getElem?_eq_none (l := l) (n := i) h]

/-- Replacing the frame at `idx` with one of equal pin count and page id
preserves every frame's pin count and page id. -/
theorem getD_set_pin_pid (l : List Frame) (idx : Nat) (f : Frame) (j : Nat)
    (hpin : f.pin_count = (l.getD idx emptyFrame).pin_count)
    (hpid : f.pid = (l.getD idx emptyFrame).pid) :
    ((l.set idx f).getD j emptyFrame).pin_count = (l.getD j emptyFrame).pin_count
    ∧ ((l.set idx f).getD j emptyFrame).pid = (l.getD j emptyFrame).pid := by
  by_cases hj : j = idx
  · subst hj
    rw [getD_set_self_split]
    split
    · exact ⟨hpin, hpid⟩
    · rw [getD_of_length_le l j (by omega)]
      exact ⟨rfl, rfl⟩
  · rw [getD_set_ne l idx j f hj]
    exact ⟨rfl, rfl⟩

/-- Pin counts are preserved by any frame replacement that keeps the pin
count (no matter the other fields). -/
theorem getD_set_pin_only (l : List Frame) (idx : Nat) (f : Frame) (j : Nat)
    (hpin : f.pin_count = (l.getD idx emptyFrame).pin_count) :
    ((l.set idx f).getD j emptyFrame).pin_count =
      (l.getD j emptyFrame).pin_count := by
  by_cases hj : j = idx
  · subst hj
    rw [getD_set_self_split]
    split
    · exact hpin
    · rw [getD_of_length_le l j (by omega)]
  · rw [getD_set_ne l idx j f hj]

/-- Replacing an unpinned frame leaves every pinned frame untouched. -/
theorem getD_set_unpinned (l : List Frame) (idx : Nat) (f : Frame)
    (hunp : (l.getD idx emptyFrame).pin_count = 0) (j : Nat)
    (hj : 0 < (l.getD j emptyFrame).pin_count) :
    (l.set idx f).getD j emptyFrame = l.getD j emptyFrame := by
  by_cases h : j = idx
  · subst h; omega
  · exact getD_set_ne l idx j f h

theorem ptLookup_erase_ne (pt : List (Nat × Nat)) (k pid : Nat) (h : k ≠ pid) :
    ptLookup (ptErase pt k) pid = ptLookup pt pid := by
  induction pt with
  | nil => rfl
  | cons e pt ih =>
      unfold ptErase ptLookup at *
      by_cases hek : e.1 = k
      · rw [List.filter_cons, if_neg (by simp [hek])]
        rw [List.find?_cons_of_neg _ (by simp [hek, h])]
        exact ih
      · rw [List.filter_cons, if_pos (by simp [hek])]
        by_cases hep : e.1 = pid
        · rw [List.find?_cons_of_pos _ (by simp [hep]),
            List.find?_cons_of_pos _ (by simp [hep])]
        · rw [List.find?_cons_of_neg _ (by simp [hep]),
            List.find?_cons_of_neg _ (by simp [hep])]
          exact ih

theorem ptLookup_erase_self (pt : List (Nat × Nat)) (k : Nat) :
    ptLookup (ptErase pt k) k = none := by
  induction pt with
  | nil => rfl
  | cons e pt ih =>
      unfold ptErase ptLookup at *
      by_cases hek : e.1 = k
      · rw [List.filter_cons, if_neg (by simp [hek])]
        exact ih
      · rw [List.filter_cons, if_pos (by simp [hek])]
        rw [List.find?_cons_of_neg _ (by simp [hek])]
        exact ih

/-! ### C2: Clock-Sweep never touches a pinned page -/

/-- Main sweep invariant: the loop preserves every frame's pin count,
leaves pinned frames entirely untouched, and either leaves the page table
unchanged (no victim) or erases exactly the entry of the victim frame,
which was unpinned in the starting state. -/
theorem sweep_loop_main (ok : Nat → Bool) (base : Nat) (l : List Nat) :
    ∀ s res s', BufferPool.sweep_loop ok base l s = (res, s') →
      (∀ j, (s'.frames.getD j emptyFrame).pin_count =
        (s.frames.getD j emptyFrame).pin_count)
      ∧ (∀ j, 0 < (s.frames.getD j emptyFrame).pin_count →
          s'.frames.getD j emptyFrame = s.frames.getD j emptyFrame)
      ∧ (match res with
         | none => s'.page_table = s.page_table
         | some fid =>
             (s.frames.getD fid emptyFrame).pin_count = 0 ∧
             s'.page_table = ptErase s.page_table
               ((s.frames.getD fid emptyFrame).pid)) := by
  induction l with
  | nil =>
      intro s res s' h
      rw [BufferPool.sweep_loop] at h
      obtain ⟨h1, h2⟩ := Prod.mk.injEq .. ▸ h
      subst h1
      cases h2
      exact ⟨fun j => rfl, fun j _ => rfl, rfl⟩
  | cons i rest ih =>
      intro s res s' h
      rw [BufferPool.sweep_loop] at h
      by_cases c1 : (s.frames.getD ((base + i) % s.pool_size) emptyFrame).pid =
          INVALID_PAGE_ID
      · rw [if_pos c1] at h
        exact ih s res s' h
      · rw [if_neg c1] at h
        by_cases c2 : (s.frames.getD ((base + i) % s.pool_size) emptyFrame).pin_count > 0
        · rw [if_pos c2] at h
          exact ih s res s' h
        · rw [if_neg c2] at h
          have c2z : (s.frames.getD ((base + i) % s.pool_size) emptyFrame).pin_count = 0 :=
            by omega
          by_cases c3 : (s.frames.getD ((base + i) % s.pool_size) emptyFrame).referenced
          · rw [if_pos c3] at h
            obtain ⟨ha, hb, hc⟩ := ih _ res s' h
            have hstep := fun j => getD_set_pin_pid s.frames ((base + i) % s.pool_size)
              { s.frames.getD ((base + i) % s.pool_size) emptyFrame with
                  referenced := false } j rfl rfl
            have hunt := fun j => getD_set_unpinned s.frames ((base + i) % s.pool_size)
              { s.frames.getD ((base + i) % s.pool_size) emptyFrame with
                  referenced := false } c2z j
            refine ⟨?_, ?_, ?_⟩
            · intro j
              rw [ha j, (hstep j).1]
            · intro j hj
              rw [hb j (by rw [(hstep j).1]; exact hj), hunt j hj]
            · cases res with
              | none => exact hc
              | some fid =>
                  obtain ⟨hc1, hc2⟩ := hc
                  constructor
                  · rw [← (hstep fid).1]; exact hc1
                  · rw [hc2, (hstep fid).2]
          · rw [if_neg c3] at h
            rw [BufferPool.evict_frame] at h
            by_cases c4 : (s.frames.getD ((base + i) % s.pool_size) emptyFrame).dirty
            · rw [if_pos c4] at h
              rw [DiskManager.write_page] at h
              by_cases c5 : ok ((s.frames.getD ((base + i) % s.pool_size) emptyFrame).pid)
              · -- write succeeds: eviction succeeds, loop returns this victim
                rw [if_pos c5] at h
                obtain ⟨h1, h2⟩ := Prod.mk.injEq .. ▸ h
                subst h1
                cases h2
                refine ⟨?_, ?_, ?_⟩
                · intro j
                  exact getD_set_pin_only s.frames _ emptyFrame j (by rw [c2z]; rfl)
                · intro j hj
                  exact getD_set_unpinned s.frames _ emptyFrame c2z j hj
                · exact ⟨c2z, rfl⟩
              · -- write fails: try the next frame
                rw [if_neg c5] at h
                obtain ⟨ha, hb, hc⟩ := ih _ res s' h
                have hstep := fun j => getD_set_pin_pid s.frames ((base + i) % s.pool_size)
                  { s.frames.getD ((base + i) % s.pool_size) emptyFrame with
                      pdata := pageUpdateChecksum
                        ((s.frames.getD ((base + i) % s.pool_size) emptyFrame).pdata) } j
                  rfl rfl
                have hunt := fun j => getD_set_unpinned s.frames ((base + i) % s.pool_size)
                  { s.frames.getD ((base + i) % s.pool_size) emptyFrame with
                      pdata := pageUpdateChecksum
                        ((s.frames.getD ((base + i) % s.pool_size) emptyFrame).pdata) } c2z j
                refine ⟨?_, ?_, ?_⟩
                · intro j
                  rw [ha j, (hstep j).1]
                · intro j hj
                  rw [hb j (by rw [(hstep j).1]; exact hj), hunt j hj]
                · cases res with
                  | none => exact hc
                  | some fid =>
                      obtain ⟨hc1, hc2⟩ := hc
                      exact ⟨by rw [← (hstep fid).1]; exact hc1,
                        by rw [hc2, (hstep fid).2]⟩
            · -- clean: eviction always succeeds
              rw [if_neg c4] at h
              obtain ⟨h1, h2⟩ := Prod.mk.injEq .. ▸ h
              subst h1
              cases h2
              refine ⟨?_, ?_, ?_⟩
              · intro j
                exact getD_set_pin_only s.frames _ emptyFrame j (by rw [c2z]; rfl)
              · intro j hj
                exact getD_set_unpinned s.frames _ emptyFrame c2z j hj
              · exact ⟨c2z, rfl⟩


/-- C2: a resident page whose `pin_count` is positive is never selected as
an eviction victim by Clock-Sweep and is never removed from the pool: the
victim (when there is one) had `pin_count = 0` at the moment of eviction,
every pinned frame is left entirely untouched by the sweep, and every
page-table entry of a pinned frame survives the sweep (in any state, with
the uniqueness of the page id among frames that every reachable state
has). -/
theorem c2_clock_sweep_never_evicts_pinned (ok : Nat → Bool) (s : PoolState)
    (res : Option Nat) (s' : PoolState)
    (h : BufferPool.clock_sweep ok s = (res, s')) :
    (∀ fid, res = some fid → (s.frames.getD fid emptyFrame).pin_count = 0)
    ∧ (∀ j, 0 < (s.frames.getD j emptyFrame).pin_count →
        s'.frames.getD j emptyFrame = s.frames.getD j emptyFrame)
    ∧ (∀ pid fidp, ptLookup s.page_table pid = some fidp →
        0 < (s.frames.getD fidp emptyFrame).pin_count →
        (∀ j, j ≠ fidp → (s.frames.getD j emptyFrame).pid ≠ pid) →
        ptLookup s'.page_table pid = some fidp) := by
  rw [BufferPool.clock_sweep] at h
  obtain ⟨ha, hb, hc⟩ := sweep_loop_main ok s.clock_hand
    (List.range s.pool_size ++ List.range s.pool_size) s res s' h
  refine ⟨?_, hb, ?_⟩
  · intro fid hfid
    subst hfid
    exact hc.1
  · intro pid fidp hpt hpin huniq
    cases res with
    | none => rw [hc, hpt]
    | some fid =>
        obtain ⟨hc1, hc2⟩ := hc
        have hne : fid ≠ fidp := by
          intro hcontra
          subst hcontra
          omega
        have hkey : (s.frames.getD fid emptyFrame).pid ≠ pid := huniq fid hne
        rw [hc2, ptLookup_erase_ne _ _ _ hkey, hpt]

/-- A pool with one pinned page (frame 0) and one unpinned clean page
(frame 1): the sweep evicts exactly page 1. -/
def c2State : PoolState :=
  { pool_size := 2
    frames := [⟨0, zeroPage, false, 1, false⟩, ⟨1, zeroPage, false, 0, false⟩]
    free_list := []
    page_table := [(0, 0), (1, 1)]
    clock_hand := 0
    dirty_count := 0
    disk := ⟨[zeroPage, zeroPage], 2⟩ }

/-- Witness instantiating `c2_clock_sweep_never_evicts_pinned` on the
concrete two-frame pool (the sweep result pair is supplied by
reflexivity). -/
theorem c2_clock_sweep_never_evicts_pinned_witness :
    (∀ fid, (BufferPool.clock_sweep (fun _ => true) c2State).1 = some fid →
      (c2State.frames.getD fid emptyFrame).pin_count = 0)
    ∧ (∀ j, 0 < (c2State.frames.getD j emptyFrame).pin_count →
        (BufferPool.clock_sweep (fun _ => true) c2State).2.frames.getD j emptyFrame =
          c2State.frames.getD j emptyFrame)
    ∧ (∀ pid fidp, ptLookup c2State.page_table pid = some fidp →
        0 < (c2State.frames.getD fidp emptyFrame).pin_count →
        (∀ j, j ≠ fidp → (c2State.frames.getD j emptyFrame).pid ≠ pid) →
        ptLookup (BufferPool.clock_sweep (fun _ => true) c2State).2.page_table pid =
          some fidp) :=
  c2_clock_sweep_never_evicts_pinned (fun _ => true) c2State
    (BufferPool.clock_sweep (fun _ => true) c2State).1
    (BufferPool.clock_sweep (fun _ => true) c2State).2 rfl


/-! ### C6: flush_pages stops at the first failure -/

/-- C6 (amended): `flush_pages` walks the ids in order and RETURNS at the
first `flush_page` failure: the failing status is returned unchanged and
none of the remaining ids is attempted (the state is exactly the state at
the moment of the failure); only when a flush succeeds does the loop
continue with the rest. -/
theorem c6_flush_pages_stops_at_first_failure (ok : Nat → Bool) (s : PoolState)
    (a : Nat) (rest : List Nat) :
    (∀ e s1, BufferPool.flush_page ok s a = (.error e, s1) →
      BufferPool.flush_pages ok s (a :: rest) = (.error e, s1))
    ∧ (∀ u s1, BufferPool.flush_page ok s a = (.ok u, s1) →
      BufferPool.flush_pages ok s (a :: rest) = BufferPool.flush_pages ok s1 rest) := by
  constructor
  · intro e s1 h
    rw [BufferPool.flush_pages, h]
  · intro u s1 h
    rw [BufferPool.flush_pages, h]

/-- Two dirty resident pages; the disk write succeeds only for page 1. -/
def c6State : PoolState :=
  { pool_size := 2
    frames := [⟨0, zeroPage, true, 0, false⟩, ⟨1, zeroPage, true, 0, false⟩]
    free_list := []
    page_table := [(0, 0), (1, 1)]
    clock_hand := 0
    dirty_count := 2
    disk := ⟨[zeroPage, zeroPage], 2⟩ }

/-- The write of page 0 fails; the write of page 1 would succeed. -/
def c6Oracle : Nat → Bool := fun pid => pid != 0

set_option maxRecDepth 40000 in
/-- C6 (counterexample): `flush_pages [0, 1]` returns page 0's failure and
never attempts page 1 — page 1 is still dirty afterwards, although a
direct `flush_page 1` from the same state would have cleaned it. -/
theorem c6_failure_skips_rest :
    (BufferPool.flush_pages c6Oracle c6State [0, 1]).1 = .error .WriteError
    ∧ ((BufferPool.flush_pages c6Oracle c6State [0, 1]).2.frames.getD 1
        emptyFrame).dirty = true
    ∧ ((BufferPool.flush_page c6Oracle c6State 1).2.frames.getD 1
        emptyFrame).dirty = false := by
  refine ⟨by decide, by decide, by decide⟩

set_option maxRecDepth 40000 in
/-- Witness instantiating `c6_flush_pages_stops_at_first_failure` on the
concrete two-page pool. -/
theorem c6_flush_pages_stops_witness :
    BufferPool.flush_pages c6Oracle c6State [0, 1] =
      (.error .WriteError, (BufferPool.flush_page c6Oracle c6State 0).2) :=
  (c6_flush_pages_stops_at_first_failure c6Oracle c6State 0 [1]).1 .WriteError
    (BufferPool.flush_page c6Oracle c6State 0).2
    (Prod.ext (by decide) rfl)


/-! ### C10: a failed new_page does not roll back the allocation -/

theorem ensure_len_ge (d : DiskState) (pid : Nat) :
    d.slots.length ≤ (DiskManager.ensure_file_size d pid).slots.length := by
  simp [DiskManager.ensure_file_size]

theorem ensure_len_ge_pid (d : DiskState) (pid : Nat) :
    pid + 1 ≤ (DiskManager.ensure_file_size d pid).slots.length := by
  simp [DiskManager.ensure_file_size]
  omega

theorem write_page_ok_disk (d : DiskState) (pid : Nat) (img : List Nat) (b : Bool)
    (d1 : DiskState) (h : DiskManager.write_page d pid img b = .ok d1) :
    d1.next_page_id = d.next_page_id ∧ d.slots.length ≤ d1.slots.length := by
  rw [DiskManager.write_page] at h
  split at h
  · cases h
    refine ⟨rfl, ?_⟩
    simp [DiskManager.ensure_file_size]
  · exact absurd h (by simp)

theorem evict_frame_disk (ok : Nat → Bool) (s : PoolState) (i : Nat) :
    (BufferPool.evict_frame ok s i).2.disk.next_page_id = s.disk.next_page_id
    ∧ s.disk.slots.length ≤ (BufferPool.evict_frame ok s i).2.disk.slots.length := by
  rw [BufferPool.evict_frame]
  split
  · split
    · exact ⟨rfl, le_refl _⟩
    · next d1 heq =>
        obtain ⟨h1, h2⟩ := write_page_ok_disk _ _ _ _ _ heq
        exact ⟨h1, h2⟩
  · exact ⟨rfl, le_refl _⟩

theorem sweep_loop_disk (ok : Nat → Bool) (base : Nat) (l : List Nat) :
    ∀ s : PoolState,
      (BufferPool.sweep_loop ok base l s).2.disk.next_page_id = s.disk.next_page_id
      ∧ s.disk.slots.length ≤ (BufferPool.sweep_loop ok base l s).2.disk.slots.length := by
  induction l with
  | nil => intro s; exact ⟨rfl, le_refl _⟩
  | cons i rest ih =>
      intro s
      rw [BufferPool.sweep_loop]
      split
      · exact ih s
      · split
        · exact ih s
        · split
          · exact ih _
          · split
            · next e s1 heq =>
                obtain ⟨ih1, ih2⟩ := ih s1
                have hed := evict_frame_disk ok s ((base + i) % s.pool_size)
                rw [heq] at hed
                exact ⟨ih1.trans hed.1, hed.2.trans ih2⟩
            · next u s1 heq =>
                have hed := evict_frame_disk ok s ((base + i) % s.pool_size)
                rw [heq] at hed
                exact ⟨hed.1, hed.2⟩

theorem find_victim_disk (ok : Nat → Bool) (s : PoolState) :
    (BufferPool.find_victim ok s).2.disk.next_page_id = s.disk.next_page_id
    ∧ s.disk.slots.length ≤ (BufferPool.find_victim ok s).2.disk.slots.length := by
  rw [BufferPool.find_victim]
  split
  · rw [BufferPool.clock_sweep]
    exact sweep_loop_disk ok s.clock_hand _ s
  · exact ⟨rfl, le_refl _⟩

theorem flush_page_disk (ok : Nat → Bool) (s : PoolState) (pid : Nat) :
    (BufferPool.flush_page ok s pid).2.disk.next_page_id = s.disk.next_page_id := by
  rw [BufferPool.flush_page]
  split
  · rfl
  · split
    · rfl
    · split
      · rfl
      · next d1 heq =>
          exact (write_page_ok_disk _ _ _ _ _ heq).1

theorem flush_pages_disk (ok : Nat → Bool) :
    ∀ (l : List Nat) (s : PoolState),
      (BufferPool.flush_pages ok s l).2.disk.next_page_id = s.disk.next_page_id := by
  intro l
  induction l with
  | nil => intro s; rfl
  | cons a rest ih =>
      intro s
      rw [BufferPool.flush_pages]
      split
      · next e s1 heq =>
          have := flush_page_disk ok s a
          rw [heq] at this
          exact this
      · next u s1 heq =>
          have h1 := flush_page_disk ok s a
          rw [heq] at h1
          exact (ih s1).trans h1

/-- Every public operation leaves the allocation counter the same or
larger (only `new_page` increments it). -/
theorem applyOp_next_mono (ok : Nat → Bool) (s : PoolState) (op : PoolOp) :
    s.disk.next_page_id ≤ (applyOp ok s op).disk.next_page_id := by
  cases op with
  | fetch pid =>
      show s.disk.next_page_id ≤ (BufferPool.fetch_page ok s pid).2.disk.next_page_id
      rw [BufferPool.fetch_page]
      split
      · exact le_refl _
      · split
        · next s1 heq =>
            have := find_victim_disk ok s
            rw [heq] at this
            exact le_of_eq this.1.symm
        · next fid s1 heq =>
            have hfv := find_victim_disk ok s
            rw [heq] at hfv
            split
            · exact le_of_eq hfv.1.symm
            · exact le_of_eq hfv.1.symm
  | newPage =>
      show s.disk.next_page_id ≤ (BufferPool.new_page ok s).2.disk.next_page_id
      rw [BufferPool.new_page]
      split
      · next s1 heq =>
          have := find_victim_disk ok { s with disk := (DiskManager.allocate_page s.disk).2 }
          rw [heq] at this
          rw [this.1]
          exact Nat.le_succ _
      · next fid s1 heq =>
          have := find_victim_disk ok { s with disk := (DiskManager.allocate_page s.disk).2 }
          rw [heq] at this
          show s.disk.next_page_id ≤ s1.disk.next_page_id
          rw [this.1]
          exact Nat.le_succ _
  | unpin pid d =>
      show s.disk.next_page_id ≤ (BufferPool.unpin_page s pid d).2.disk.next_page_id
      rw [BufferPool.unpin_page]
      split
      · exact le_refl _
      · split
        · exact le_refl _
        · split <;> exact le_refl _
  | flushOne pid =>
      exact le_of_eq (flush_page_disk ok s pid).symm
  | flushMany pids =>
      exact le_of_eq (flush_pages_disk ok pids s).symm
  | del pid =>
      show s.disk.next_page_id ≤ (BufferPool.delete_page s pid).2.disk.next_page_id
      rw [BufferPool.delete_page]
      split
      · exact le_refl _
      · split <;> exact le_refl _

/-- A history of operations applied in order. -/
def applyOps (ok : Nat → Bool) (ops : List PoolOp) (s : PoolState) : PoolState :=
  ops.foldl (applyOp ok) s

theorem applyOps_next_mono (ok : Nat → Bool) (ops : List PoolOp) :
    ∀ s : PoolState, s.disk.next_page_id ≤ (applyOps ok ops s).disk.next_page_id := by
  induction ops with
  | nil => intro s; exact le_refl _
  | cons op rest ih =>
      intro s
      exact (applyOp_next_mono ok s op).trans (ih (applyOp ok s op))

/-- C10: when `new_page` fails with `NoAvailableFrames` the disk
allocation is not rolled back — the allocation counter (`page_count()`)
is one larger than before the call and the data file covers the new slot
— and the lost PageId is never handed out: every successful `new_page`
returns the counter at its call, the counter never decreases under any
operation, and hence any later successful `new_page`, after any operation
history, returns a PageId different from (strictly larger than) the lost
one. -/
theorem c10_new_page_no_rollback :
    (∀ (ok : Nat → Bool) (s s' : PoolState),
      BufferPool.new_page ok s = (.error .NoAvailableFrames, s') →
        s'.disk.next_page_id = s.disk.next_page_id + 1
        ∧ s.disk.next_page_id + 1 ≤ s'.disk.slots.length)
    ∧ (∀ (ok : Nat → Bool) (s : PoolState) (q : Nat) (s' : PoolState),
      BufferPool.new_page ok s = (.ok q, s') →
        q = s.disk.next_page_id ∧ s'.disk.next_page_id = s.disk.next_page_id + 1)
    ∧ (∀ (ok : Nat → Bool) (s : PoolState) (op : PoolOp),
        s.disk.next_page_id ≤ (applyOp ok s op).disk.next_page_id)
    ∧ (∀ (ok : Nat → Bool) (s s' : PoolState) (ops : List PoolOp) (q : Nat)
        (s2 : PoolState),
        BufferPool.new_page ok s = (.error .NoAvailableFrames, s') →
        BufferPool.new_page ok (applyOps ok ops s') = (.ok q, s2) →
        q ≠ s.disk.next_page_id) := by
  have hfail : ∀ (ok : Nat → Bool) (s s' : PoolState),
      BufferPool.new_page ok s = (.error .NoAvailableFrames, s') →
        s'.disk.next_page_id = s.disk.next_page_id + 1
        ∧ s.disk.next_page_id + 1 ≤ s'.disk.slots.length := by
    intro ok s s' h
    rw [BufferPool.new_page] at h
    split at h
    · next s1 heq =>
        obtain ⟨h1, h2⟩ := Prod.mk.injEq .. ▸ h
        subst h2
        have hfv := find_victim_disk ok { s with disk := (DiskManager.allocate_page s.disk).2 }
        rw [heq] at hfv
        refine ⟨hfv.1, ?_⟩
        refine le_trans ?_ hfv.2
        exact ensure_len_ge_pid { s.disk with next_page_id := s.disk.next_page_id + 1 }
          s.disk.next_page_id
    · next fid s1 heq =>
        obtain ⟨h1, h2⟩ := Prod.mk.injEq .. ▸ h
        exact absurd h1 (by simp)
  have hok : ∀ (ok : Nat → Bool) (s : PoolState) (q : Nat) (s' : PoolState),
      BufferPool.new_page ok s = (.ok q, s') →
        q = s.disk.next_page_id ∧ s'.disk.next_page_id = s.disk.next_page_id + 1 := by
    intro ok s q s' h
    rw [BufferPool.new_page] at h
    split at h
    · next s1 heq =>
        obtain ⟨h1, h2⟩ := Prod.mk.injEq .. ▸ h
        exact absurd h1 (by simp)
    · next fid s1 heq =>
        obtain ⟨h1, h2⟩ := Prod.mk.injEq .. ▸ h
        have hq : q = s.disk.next_page_id := by
          have := Except.ok.injEq .. ▸ h1
          exact this.symm
        subst h2
        have hfv := find_victim_disk ok { s with disk := (DiskManager.allocate_page s.disk).2 }
        rw [heq] at hfv
        exact ⟨hq, hfv.1⟩
  refine ⟨hfail, hok, applyOp_next_mono, ?_⟩
  intro ok s s' ops q s2 h1 h2
  obtain ⟨hn, _⟩ := hfail ok s s' h1
  obtain ⟨hq, _⟩ := hok ok (applyOps ok ops s') q s2 h2
  have hmono := applyOps_next_mono ok ops s'
  omega

/-- A one-frame pool whose only frame is pinned: `new_page` must fail. -/
def c10State : PoolState :=
  { pool_size := 1
    frames := [⟨0, zeroPage, false, 1, false⟩]
    free_list := []
    page_table := [(0, 0)]
    clock_hand := 0
    dirty_count := 0
    disk := ⟨[zeroPage], 1⟩ }

set_option maxRecDepth 40000 in
/-- Witness instantiating `c10_new_page_no_rollback` on the pinned
one-frame pool: the failed call leaves `next_page_id = 2` and a 2-slot
file. -/
theorem c10_new_page_no_rollback_witness :
    (BufferPool.new_page (fun _ => true) c10State).2.disk.next_page_id =
      c10State.disk.next_page_id + 1
    ∧ c10State.disk.next_page_id + 1 ≤
      (BufferPool.new_page (fun _ => true) c10State).2.disk.slots.length :=
  c10_new_page_no_rollback.1 (fun _ => true) c10State
    (BufferPool.new_page (fun _ => true) c10State).2
    (Prod.ext (by decide) rfl)


/-! ## CheckpointManager::should_checkpoint (checkpoint.cpp, lines 138-192)

The observed inputs are the elapsed seconds since the last checkpoint, the
dirty ratio (`dirty_count / capacity`, a real-valued quantity modelled as
a rational) and the WAL size; the limits come from `CheckpointConfig`. -/

inductive CheckpointTrigger where
  | Timer | WalSize | DirtySoft | DirtyHard | Manual | Shutdown
deriving DecidableEq

structure CheckpointConfig where
  max_interval : Nat
  min_interval : Nat
  max_wal_size : Nat
  dirty_soft_limit : ℚ
  dirty_hard_limit : ℚ

/-- `CheckpointManager::should_checkpoint()`: the five-way priority
chain. -/
def should_checkpoint (cfg : CheckpointConfig) (since_last : Nat)
    (dirty_ratio : ℚ) (wal_size : Nat) : Option CheckpointTrigger :=
  if dirty_ratio ≥ cfg.dirty_hard_limit then some .DirtyHard
  else if since_last < cfg.min_interval then none
  else if wal_size ≥ cfg.max_wal_size then some .WalSize
  else if dirty_ratio ≥ cfg.dirty_soft_limit then some .DirtySoft
  else if since_last ≥ cfg.max_interval then some .Timer
  else none

/-- C8: the triggers are evaluated in strict priority order: `DirtyHard`
whenever the ratio reaches the hard limit (bypassing `min_interval`);
otherwise nothing below `min_interval`; then `WalSize`, then `DirtySoft`,
then `Timer` at `max_interval`, else nothing. -/
theorem c8_should_checkpoint_priority (cfg : CheckpointConfig)
    (since_last : Nat) (dirty_ratio : ℚ) (wal_size : Nat) :
    (cfg.dirty_hard_limit ≤ dirty_ratio →
      should_checkpoint cfg since_last dirty_ratio wal_size = some .DirtyHard)
    ∧ (dirty_ratio < cfg.dirty_hard_limit → since_last < cfg.min_interval →
      should_checkpoint cfg since_last dirty_ratio wal_size = none)
    ∧ (dirty_ratio < cfg.dirty_hard_limit → cfg.min_interval ≤ since_last →
      cfg.max_wal_size ≤ wal_size →
      should_checkpoint cfg since_last dirty_ratio wal_size = some .WalSize)
    ∧ (dirty_ratio < cfg.dirty_hard_limit → cfg.min_interval ≤ since_last →
      wal_size < cfg.max_wal_size → cfg.dirty_soft_limit ≤ dirty_ratio →
      should_checkpoint cfg since_last dirty_ratio wal_size = some .DirtySoft)
    ∧ (dirty_ratio < cfg.dirty_hard_limit → cfg.min_interval ≤ since_last →
      wal_size < cfg.max_wal_size → dirty_ratio < cfg.dirty_soft_limit →
      cfg.max_interval ≤ since_last →
      should_checkpoint cfg since_last dirty_ratio wal_size = some .Timer)
    ∧ (dirty_ratio < cfg.dirty_hard_limit → cfg.min_interval ≤ since_last →
      wal_size < cfg.max_wal_size → dirty_ratio < cfg.dirty_soft_limit →
      since_last < cfg.max_interval →
      should_checkpoint cfg since_last dirty_ratio wal_size = none) := by
  unfold should_checkpoint
  refine ⟨?_, ?_, ?_, ?_, ?_, ?_⟩
  · intro h1
    rw [if_pos h1]
  · intro h1 h2
    rw [if_neg (not_le.mpr h1), if_pos h2]
  · intro h1 h2 h3
    rw [if_neg (not_le.mpr h1), if_neg (not_lt.mpr h2), if_pos h3]
  · intro h1 h2 h3 h4
    rw [if_neg (not_le.mpr h1), if_neg (not_lt.mpr h2),
      if_neg (not_le.mpr h3), if_pos h4]
  · intro h1 h2 h3 h4 h5
    rw [if_neg (not_le.mpr h1), if_neg (not_lt.mpr h2),
      if_neg (not_le.mpr h3), if_neg (not_le.mpr h4), if_pos h5]
  · intro h1 h2 h3 h4 h5
    rw [if_neg (not_le.mpr h1), if_neg (not_lt.mpr h2),
      if_neg (not_le.mpr h3), if_neg (not_le.mpr h4), if_neg (not_le.mpr h5)]

/-- The default configuration from `CheckpointConfig` in `types.hpp`. -/
def defaultCheckpointConfig : CheckpointConfig :=
  { max_interval := 60, min_interval := 5, max_wal_size := 1073741824
    dirty_soft_limit := 7 / 10, dirty_hard_limit := 9 / 10 }

/-- Witness instantiating every branch of
`c8_should_checkpoint_priority` on the default configuration. -/
theorem c8_should_checkpoint_priority_witness :
    should_checkpoint defaultCheckpointConfig 0 (95 / 100) 0 = some .DirtyHard
    ∧ should_checkpoint defaultCheckpointConfig 3 (1 / 2) 0 = none
    ∧ should_checkpoint defaultCheckpointConfig 10 (1 / 2) 1073741824 = some .WalSize
    ∧ should_checkpoint defaultCheckpointConfig 10 (8 / 10) 0 = some .DirtySoft
    ∧ should_checkpoint defaultCheckpointConfig 100 (1 / 2) 0 = some .Timer
    ∧ should_checkpoint defaultCheckpointConfig 10 (1 / 2) 0 = none :=
  ⟨(c8_should_checkpoint_priority _ 0 _ 0).1 (by norm_num [defaultCheckpointConfig]),
   (c8_should_checkpoint_priority _ 3 _ 0).2.1 (by norm_num [defaultCheckpointConfig])
     (by norm_num [defaultCheckpointConfig]),
   (c8_should_checkpoint_priority _ 10 _ _).2.2.1
     (by norm_num [defaultCheckpointConfig]) (by norm_num [defaultCheckpointConfig])
     (by norm_num [defaultCheckpointConfig]),
   (c8_should_checkpoint_priority _ 10 _ 0).2.2.2.1
     (by norm_num [defaultCheckpointConfig]) (by norm_num [defaultCheckpointConfig])
     (by norm_num [defaultCheckpointConfig]) (by norm_num [defaultCheckpointConfig]),
   (c8_should_checkpoint_priority _ 100 _ 0).2.2.2.2.1
     (by norm_num [defaultCheckpointConfig]) (by norm_num [defaultCheckpointConfig])
     (by norm_num [defaultCheckpointConfig]) (by norm_num [defaultCheckpointConfig])
     (by norm_num [defaultCheckpointConfig]),
   (c8_should_checkpoint_priority _ 10 _ 0).2.2.2.2.2
     (by norm_num [defaultCheckpointConfig]) (by norm_num [defaultCheckpointConfig])
     (by norm_num [defaultCheckpointConfig]) (by norm_num [defaultCheckpointConfig])
     (by norm_num [defaultCheckpointConfig])⟩


/-! ### C9: a clean-evicted new page is poisoned forever

Generic list/table helpers first. -/

theorem getD_set_ne_any {α : Type} (l : List α) (i p : Nat) (a d : α)
    (h : p ≠ i) : (l.set i a).getD p d = l.getD p d := by
  simp [List.getD_eq_getElem?_getD, List.getElem?_set_ne (fun hh => h hh.symm)]

theorem getD_append_left_any {α : Type} (l l2 : List α) (d : α) (p : Nat)
    (h : p < l.length) : (l ++ l2).getD p d = l.getD p d := by
  simp [List.getD_eq_getElem?_getD, List.getElem?_append_left h]

theorem getD_append_replicate_zeroPage (l : List (List Nat)) (count p : Nat)
    (h1 : l.length ≤ p) (h2 : p < l.length + count) :
    (l ++ List.replicate count zeroPage).getD p [] = zeroPage := by
  rw [List.getD_eq_getElem?_getD, List.getElem?_append_right h1]
  have h3 : p - l.length < count := by omega
  simp [List.getElem?_replicate, h3]

theorem ptLookup_insert_self (pt : List (Nat × Nat)) (q fid : Nat) :
    ptLookup (ptInsert pt q fid) q = some fid := by
  unfold ptInsert
  have h1 : List.find? (fun e => e.1 == q) (ptErase pt q) = none := by
    have h0 := ptLookup_erase_self pt q
    unfold ptLookup at h0
    cases hf : List.find? (fun e => e.1 == q) (ptErase pt q) with
    | none => rfl
    | some v => rw [hf] at h0; exact absurd h0 (by simp)
  unfold ptLookup
  rw [List.find?_append, h1]
  simp

theorem ptLookup_insert_ne (pt : List (Nat × Nat)) (q fid p : Nat) (h : p ≠ q) :
    ptLookup (ptInsert pt q fid) p = ptLookup pt p := by
  unfold ptInsert
  have h3 := ptLookup_erase_ne pt q p (fun hh => h hh.symm)
  unfold ptLookup at h3 ⊢
  rw [List.find?_append]
  have h2 : List.find? (fun e => e.1 == p) [(q, fid)] = none := by
    rw [List.find?_singleton, if_neg]
    simp
    exact fun hh => h hh.symm
  rw [h2, Option.or_none]
  exact h3

theorem ptLookup_erase_none (pt : List (Nat × Nat)) (k p : Nat)
    (h : ptLookup pt p = none) : ptLookup (ptErase pt k) p = none := by
  by_cases hk : k = p
  · subst hk; exact ptLookup_erase_self pt k
  · rw [ptLookup_erase_ne pt k p hk]; exact h

/-- A successful `write_page` to a different slot leaves slot `p` (and its
being in range) intact. -/
theorem write_page_slot_preserved (d : DiskState) (pid : Nat) (img : List Nat)
    (b : Bool) (d1 : DiskState) (hw : DiskManager.write_page d pid img b = .ok d1)
    (p : Nat) (hne : p ≠ pid) (hp : p < d.slots.length) :
    p < d1.slots.length ∧ d1.slots.getD p [] = d.slots.getD p [] := by
  rw [DiskManager.write_page] at hw
  split at hw
  · cases hw
    constructor
    · simp [DiskManager.ensure_file_size]
      omega
    · rw [getD_set_ne_any _ _ _ _ _ hne]
      exact getD_append_left_any _ _ _ _ hp
  · exact absurd hw (by simp)

/-- The invariant of a poisoned PageId: in range, its disk slot all zeros,
not resident, held by no frame. -/
def PoisonInv (s : PoolState) (p : Nat) : Prop :=
  p ≠ INVALID_PAGE_ID
  ∧ p < s.disk.next_page_id
  ∧ p < s.disk.slots.length
  ∧ s.disk.slots.getD p [] = zeroPage
  ∧ ptLookup s.page_table p = none
  ∧ ∀ j, (s.frames.getD j emptyFrame).pid ≠ p

/-- After replacing frame `i` with a frame whose pid is not `p`, still no
frame holds `p` (given none did before). -/
theorem frames_set_no_p (l : List Frame) (i : Nat) (f : Frame) (p : Nat)
    (hall : ∀ j, (l.getD j emptyFrame).pid ≠ p) (hf : f.pid ≠ p)
    (hinv : p ≠ INVALID_PAGE_ID) :
    ∀ j, ((l.set i f).getD j emptyFrame).pid ≠ p := by
  intro j
  by_cases hj : j = i
  · subst hj
    rw [getD_set_self_split]
    split
    · exact hf
    · exact fun hc => hinv hc.symm
  · rw [getD_set_ne _ _ _ _ hj]
    exact hall j

/-- `evict_frame` preserves the poison invariant. -/
theorem evict_frame_poison (ok : Nat → Bool) (s : PoolState) (i p : Nat)
    (h : PoisonInv s p) : PoisonInv (BufferPool.evict_frame ok s i).2 p := by
  obtain ⟨h1, h2, h3, h4, h5, h6⟩ := h
  rw [BufferPool.evict_frame]
  split
  · split
    · -- write failed: only the frame's bytes changed
      exact ⟨h1, h2, h3, h4, h5, frames_set_no_p _ _ _ _ h6 (h6 i) h1⟩
    · next d1 heq =>
        have hw := write_page_slot_preserved s.disk _ _ _ d1 heq p
          (fun hc => h6 i hc.symm) h3
        have hN := (write_page_ok_disk _ _ _ _ _ heq).1
        refine ⟨h1, ?_, hw.1, hw.2.trans h4, ?_, ?_⟩
        · show p < d1.next_page_id
          rw [hN]
          exact h2
        · exact ptLookup_erase_none _ _ _ h5
        · exact frames_set_no_p _ _ _ _ h6 (fun hc => h1 hc.symm) h1
  · exact ⟨h1, h2, h3, h4, ptLookup_erase_none _ _ _ h5,
      frames_set_no_p _ _ _ _ h6 (fun hc => h1 hc.symm) h1⟩

/-! Byte-level facts about the all-zero slot created by allocation. -/

theorem fromLEBytes_replicate_zero (n : Nat) :
    fromLEBytes (List.replicate n 0) = 0 := by
  induction n with
  | zero => rfl
  | succ n ih => simp [List.replicate_succ, fromLEBytes, ih]

theorem readLE_replicate_zero (m off n : Nat) :
    readLE (List.replicate m 0) off n = 0 := by
  unfold readLE
  rw [List.drop_replicate, List.take_replicate]
  exact fromLEBytes_replicate_zero _

/-- `pageStoredChecksum` of the all-zero page is 0 (the on-disk slot that
`ensure_file_size` creates carries a stored checksum of 0). -/
theorem pageStoredChecksum_zeroPage : pageStoredChecksum zeroPage = 0 := by
  unfold pageStoredChecksum zeroPage
  exact readLE_replicate_zero _ _ _

/-- `set_id` on the all-zero page only touches header bytes 0..3. -/
theorem setBytes_zeroPage_writeLE (p : Nat) :
    setBytes zeroPage 0 (writeLE p 4) = writeLE p 4 ++ List.replicate 4092 0 := by
  unfold setBytes zeroPage PAGE_SIZE
  rw [List.take_zero, List.nil_append, writeLE_length, Nat.zero_add,
    List.drop_replicate]

/-- After `read_page`'s `set_id`, the stored checksum field of the
all-zero slot is still 0. -/
theorem pageStored_setid_zero (p : Nat) :
    pageStoredChecksum (setBytes zeroPage 0 (writeLE p 4)) = 0 := by
  rw [setBytes_zeroPage_writeLE]
  unfold pageStoredChecksum CHECKSUM_OFFSET
  have h : (16 : Nat) = 4 + 12 := by norm_num
  rw [h, readLE_skip_writeLE]
  exact readLE_replicate_zero _ _ _

/-- Writing the id 0 into the all-zero page is the identity. -/
theorem setBytes_zeroPage_id0 : setBytes zeroPage 0 (writeLE 0 4) = zeroPage := by
  rw [setBytes_zeroPage_writeLE]
  have h : writeLE 0 4 = List.replicate 4 0 := by decide
  rw [h, ← List.replicate_add]
  rfl

theorem getD_default_irrel {α : Type} (l : List α) (i : Nat) (d1 d2 : α)
    (h : i < l.length) : l.getD i d1 = l.getD i d2 := by
  rw [List.getD_eq_getElem?_getD, List.getD_eq_getElem?_getD,
    List.getElem?_eq_getElem h]
  rfl

/-- `read_page` of an in-range all-zero slot fails with `ChecksumMismatch`
whenever the post-`set_id` image has a nonzero computed checksum (the
stored field is 0). -/
theorem read_page_poison (d : DiskState) (p : Nat)
    (hn : p < d.next_page_id) (hlen : p < d.slots.length)
    (hslot : d.slots.getD p [] = zeroPage)
    (Hcrc : pageComputeChecksum (setBytes zeroPage 0 (writeLE p 4)) ≠ 0) :
    DiskManager.read_page d p = .error .ChecksumMismatch := by
  rw [DiskManager.read_page]
  have hz : d.slots.getD p zeroPage = zeroPage :=
    (getD_default_irrel d.slots p zeroPage [] hlen).trans hslot
  rw [hz]
  rw [if_neg (by omega)]
  rw [if_neg]
  unfold pageVerifyChecksum
  rw [pageStored_setid_zero]
  simp
  exact Hcrc

/-- The intermediate state of `new_page` (after `allocate_page`) keeps the
poison invariant: the counter grows and the existing slots are intact. -/
theorem allocate_poison (s : PoolState) (p : Nat) (h : PoisonInv s p) :
    PoisonInv { s with disk := (DiskManager.allocate_page s.disk).2 } p := by
  obtain ⟨h1, h2, h3, h4, h5, h6⟩ := h
  refine ⟨h1, Nat.lt_succ_of_lt h2, ?_, ?_, h5, h6⟩
  · show p < (DiskManager.ensure_file_size _ _).slots.length
    exact lt_of_lt_of_le h3 (ensure_len_ge _ _)
  · show (DiskManager.ensure_file_size _ _).slots.getD p [] = zeroPage
    rw [DiskManager.ensure_file_size]
    rw [getD_append_left_any _ _ _ _ h3]
    exact h4

/-- The clock sweep preserves the poison invariant. -/
theorem sweep_loop_poison (ok : Nat → Bool) (base : Nat) (l : List Nat) :
    ∀ (s : PoolState) (p : Nat), PoisonInv s p →
      PoisonInv (BufferPool.sweep_loop ok base l s).2 p := by
  induction l with
  | nil => intro s p h; exact h
  | cons i rest ih =>
      intro s p h
      rw [BufferPool.sweep_loop]
      split
      · exact ih s p h
      · split
        · exact ih s p h
        · split
          · refine ih _ p ?_
            obtain ⟨h1, h2, h3, h4, h5, h6⟩ := h
            exact ⟨h1, h2, h3, h4, h5,
              frames_set_no_p _ _ _ _ h6 (h6 _) h1⟩
          · split
            · next e s1 heq =>
                refine ih s1 p ?_
                have hev := evict_frame_poison ok s ((base + i) % s.pool_size) p h
                rw [heq] at hev
                exact hev
            · next u s1 heq =>
                have hev := evict_frame_poison ok s ((base + i) % s.pool_size) p h
                rw [heq] at hev
                exact hev

/-- `find_victim` preserves the poison invariant. -/
theorem find_victim_poison (ok : Nat → Bool) (s : PoolState) (p : Nat)
    (h : PoisonInv s p) : PoisonInv (BufferPool.find_victim ok s).2 p := by
  rw [BufferPool.find_victim]
  split
  · rw [BufferPool.clock_sweep]
    exact sweep_loop_poison ok s.clock_hand _ s p h
  · exact h

/-- Fetching the poisoned page itself: the lookup misses, and either no
victim frame is available or the disk read fails the checksum check; the
call never succeeds and the invariant survives. -/
theorem fetch_page_poison (ok : Nat → Bool) (s : PoolState) (p : Nat)
    (h : PoisonInv s p)
    (Hcrc : pageComputeChecksum (setBytes zeroPage 0 (writeLE p 4)) ≠ 0) :
    ((BufferPool.fetch_page ok s p).1 = .error .NoAvailableFrames
      ∨ (BufferPool.fetch_page ok s p).1 = .error .ChecksumMismatch)
    ∧ PoisonInv (BufferPool.fetch_page ok s p).2 p := by
  have h5 := h.2.2.2.2.1
  rw [BufferPool.fetch_page, h5]
  have hfv := find_victim_poison ok s p h
  cases hm : BufferPool.find_victim ok s with
  | mk r s1 =>
      rw [hm] at hfv
      cases r with
      | none => exact ⟨Or.inl rfl, hfv⟩
      | some fid =>
          obtain ⟨g1, g2, g3, g4, g5, g6⟩ := hfv
          have hr := read_page_poison s1.disk p g2 g3 g4 Hcrc
          dsimp only []
          rw [hr]
          exact ⟨Or.inr rfl, g1, g2, g3, g4, g5, g6⟩

/-- Fetching any other page preserves the poison invariant. -/
theorem fetch_page_other_poison (ok : Nat → Bool) (s : PoolState) (q p : Nat)
    (hq : q ≠ p) (h : PoisonInv s p) :
    PoisonInv (BufferPool.fetch_page ok s q).2 p := by
  obtain ⟨h1, h2, h3, h4, h5, h6⟩ := h
  rw [BufferPool.fetch_page]
  cases hl : ptLookup s.page_table q with
  | some fid =>
      exact ⟨h1, h2, h3, h4, h5,
        frames_set_no_p _ _ _ _ h6 (h6 fid) h1⟩
  | none =>
      have hfv := find_victim_poison ok s p ⟨h1, h2, h3, h4, h5, h6⟩
      cases hm : BufferPool.find_victim ok s with
      | mk r s1 =>
          rw [hm] at hfv
          cases r with
          | none => exact hfv
          | some fid =>
              obtain ⟨g1, g2, g3, g4, g5, g6⟩ := hfv
              dsimp only []
              cases hr : DiskManager.read_page s1.disk q with
              | error e => exact ⟨g1, g2, g3, g4, g5, g6⟩
              | ok img =>
                  refine ⟨g1, g2, g3, g4, ?_, ?_⟩
                  · show ptLookup (ptInsert s1.page_table q fid) p = none
                    rw [ptLookup_insert_ne _ _ _ _ (fun hh => hq hh.symm)]
                    exact g5
                  · show ∀ j,
                      ((s1.frames.set fid ⟨q, img, false, 1, true⟩).getD j
                        emptyFrame).pid ≠ p
                    exact frames_set_no_p _ _ _ _ g6 hq g1

/-- `new_page` preserves the poison invariant: the fresh id is strictly
above `p`, so the installed frame and table entry never mention `p`. -/
theorem new_page_poison (ok : Nat → Bool) (s : PoolState) (p : Nat)
    (h : PoisonInv s p) : PoisonInv (BufferPool.new_page ok s).2 p := by
  have hmid := allocate_poison s p h
  have h2 := h.2.1
  rw [BufferPool.new_page]
  have hfv := find_victim_poison ok
    { s with disk := (DiskManager.allocate_page s.disk).2 } p hmid
  cases hm : BufferPool.find_victim ok
      { s with disk := (DiskManager.allocate_page s.disk).2 } with
  | mk r s1 =>
      rw [hm] at hfv
      cases r with
      | none => exact hfv
      | some fid =>
          obtain ⟨g1, g2, g3, g4, g5, g6⟩ := hfv
          refine ⟨g1, g2, g3, g4, ?_, ?_⟩
          · show ptLookup (ptInsert s1.page_table s.disk.next_page_id fid) p
              = none
            rw [ptLookup_insert_ne _ _ _ _ (Nat.ne_of_lt h2)]
            exact g5
          · show ∀ j,
              ((s1.frames.set fid
                ⟨s.disk.next_page_id, resetPageDataWithId s.disk.next_page_id,
                  false, 1, true⟩).getD j emptyFrame).pid ≠ p
            exact frames_set_no_p _ _ _ _ g6 (Nat.ne_of_gt h2) g1

/-- `unpin_page` preserves the poison invariant (it only adjusts pin
counts and dirty flags). -/
theorem unpin_page_poison (s : PoolState) (q : Nat) (d : Bool) (p : Nat)
    (h : PoisonInv s p) : PoisonInv (BufferPool.unpin_page s q d).2 p := by
  obtain ⟨h1, h2, h3, h4, h5, h6⟩ := h
  rw [BufferPool.unpin_page]
  cases hl : ptLookup s.page_table q with
  | none => exact ⟨h1, h2, h3, h4, h5, h6⟩
  | some fid =>
      dsimp only []
      split
      · exact ⟨h1, h2, h3, h4, h5, h6⟩
      · split
        · exact ⟨h1, h2, h3, h4, h5,
            frames_set_no_p _ _ _ _ h6 (h6 fid) h1⟩
        · exact ⟨h1, h2, h3, h4, h5,
            frames_set_no_p _ _ _ _ h6 (h6 fid) h1⟩

/-- `flush_page` preserves the poison invariant: the poisoned page is not
resident, so any write-back concerns a different slot. -/
theorem flush_page_poison (ok : Nat → Bool) (s : PoolState) (q p : Nat)
    (h : PoisonInv s p) : PoisonInv (BufferPool.flush_page ok s q).2 p := by
  obtain ⟨h1, h2, h3, h4, h5, h6⟩ := h
  rw [BufferPool.flush_page]
  cases hl : ptLookup s.page_table q with
  | none => exact ⟨h1, h2, h3, h4, h5, h6⟩
  | some fid =>
      have hq : q ≠ p := by
        intro hh
        rw [hh, h5] at hl
        exact absurd hl (by simp)
      dsimp only []
      split
      · exact ⟨h1, h2, h3, h4, h5, h6⟩
      · cases hw : DiskManager.write_page s.disk q
            ((s.frames.getD fid emptyFrame).pdata) (ok q) with
        | error e =>
            exact ⟨h1, h2, h3, h4, h5,
              frames_set_no_p _ _ _ _ h6 (h6 fid) h1⟩
        | ok d1 =>
            have hw2 := write_page_slot_preserved s.disk q _ _ d1 hw p
              (fun hc => hq hc.symm) h3
            have hN := (write_page_ok_disk _ _ _ _ _ hw).1
            refine ⟨h1, ?_, hw2.1, hw2.2.trans h4, h5, ?_⟩
            · show p < d1.next_page_id
              rw [hN]
              exact h2
            · show ∀ j,
                ((s.frames.set fid
                  { s.frames.getD fid emptyFrame with
                      pdata := pageUpdateChecksum
                        (s.frames.getD fid emptyFrame).pdata
                      dirty := false }).getD j emptyFrame).pid ≠ p
              exact frames_set_no_p _ _ _ _ h6 (h6 fid) h1

/-- `flush_pages` preserves the poison invariant. -/
theorem flush_pages_poison (ok : Nat → Bool) :
    ∀ (l : List Nat) (s : PoolState) (p : Nat), PoisonInv s p →
      PoisonInv (BufferPool.flush_pages ok s l).2 p := by
  intro l
  induction l with
  | nil => intro s p h; exact h
  | cons a rest ih =>
      intro s p h
      rw [BufferPool.flush_pages]
      have hf := flush_page_poison ok s a p h
      cases hm : BufferPool.flush_page ok s a with
      | mk r s1 =>
          rw [hm] at hf
          cases r with
          | error e => exact hf
          | ok u => exact ih s1 p hf

/-- `delete_page` preserves the poison invariant. -/
theorem delete_page_poison (s : PoolState) (q p : Nat)
    (h : PoisonInv s p) : PoisonInv (BufferPool.delete_page s q).2 p := by
  obtain ⟨h1, h2, h3, h4, h5, h6⟩ := h
  rw [BufferPool.delete_page]
  cases hl : ptLookup s.page_table q with
  | none => exact ⟨h1, h2, h3, h4, h5, h6⟩
  | some fid =>
      dsimp only []
      split
      · exact ⟨h1, h2, h3, h4, h5, h6⟩
      · refine ⟨h1, h2, h3, h4, ptLookup_erase_none _ _ _ h5, ?_⟩
        exact frames_set_no_p _ _ _ _ h6 (fun hc => h1 hc.symm) h1

/-- Every public buffer-pool operation preserves the poison invariant. -/
theorem applyOp_poison (ok : Nat → Bool) (s : PoolState) (p : Nat)
    (Hcrc : pageComputeChecksum (setBytes zeroPage 0 (writeLE p 4)) ≠ 0)
    (h : PoisonInv s p) : ∀ op, PoisonInv (applyOp ok s op) p := by
  intro op
  cases op with
  | fetch q =>
      by_cases hq : q = p
      · subst hq
        exact (fetch_page_poison ok s q h Hcrc).2
      · exact fetch_page_other_poison ok s q p hq h
  | newPage => exact new_page_poison ok s p h
  | unpin q d => exact unpin_page_poison s q d p h
  | flushOne q => exact flush_page_poison ok s q p h
  | flushMany l => exact flush_pages_poison ok l s p h
  | del q => exact delete_page_poison s q p h

/-- Whole histories of public operations preserve the poison invariant. -/
theorem applyOps_poison (ok : Nat → Bool) (p : Nat)
    (Hcrc : pageComputeChecksum (setBytes zeroPage 0 (writeLE p 4)) ≠ 0) :
    ∀ (ops : List PoolOp) (s : PoolState), PoisonInv s p →
      PoisonInv (applyOps ok ops s) p := by
  intro ops
  induction ops with
  | nil => intro s h; exact h
  | cons op rest ih =>
      intro s h
      exact ih (applyOp ok s op) (applyOp_poison ok s p Hcrc h op)

/-- Evicting a clean frame that holds `p` (the only frame holding it)
establishes the poison invariant: the frame is discarded without a
write-back, so the on-disk slot keeps its zero bytes. -/
theorem evict_clean_poison (ok : Nat → Bool) (s : PoolState) (i p : Nat)
    (hd : (s.frames.getD i emptyFrame).dirty = false)
    (hpid : (s.frames.getD i emptyFrame).pid = p)
    (huniq : ∀ j, j ≠ i → (s.frames.getD j emptyFrame).pid ≠ p)
    (h1 : p ≠ INVALID_PAGE_ID) (h2 : p < s.disk.next_page_id)
    (h3 : p < s.disk.slots.length)
    (h4 : s.disk.slots.getD p [] = zeroPage) :
    PoisonInv (BufferPool.evict_frame ok s i).2 p := by
  rw [BufferPool.evict_frame]
  rw [if_neg (by rw [hd]; exact Bool.false_ne_true)]
  refine ⟨h1, h2, h3, h4, ?_, ?_⟩
  · show ptLookup (ptErase s.page_table (s.frames.getD i emptyFrame).pid) p = none
    rw [hpid]
    exact ptLookup_erase_self _ _
  · intro j
    by_cases hj : j = i
    · subst hj
      rw [getD_set_self_split]
      split
      · exact fun hc => h1 hc.symm
      · exact fun hc => h1 hc.symm
    · rw [getD_set_ne _ _ _ _ hj]
      exact huniq j hj

/-- C9 (amended): a PageId `p` whose frame is evicted clean while its
on-disk slot still holds the all-zero bytes created by allocation (stored
checksum 0) is poisoned: (1) the stored checksum of the zero slot is 0;
(2) evicting the clean frame that holds `p` (the only one) establishes the
poison invariant; (3) the invariant survives every subsequent history of
public buffer-pool operations; (4) in any poisoned state `fetch_page(p)`
fails - with `ChecksumMismatch` when a victim frame is found and the read
reaches the checksum check, but with `NoAvailableFrames` when no victim is
available - and never succeeds.  (`Hcrc` states that the zero slot after
`read_page`'s `set_id(p)` does not hash to its stored checksum 0.) -/
theorem c9_clean_evicted_new_page_unfetchable (ok : Nat → Bool)
    (s : PoolState) (p : Nat)
    (Hcrc : pageComputeChecksum (setBytes zeroPage 0 (writeLE p 4)) ≠ 0) :
    pageStoredChecksum zeroPage = 0
    ∧ (∀ i,
        (s.frames.getD i emptyFrame).dirty = false →
        (s.frames.getD i emptyFrame).pid = p →
        (∀ j, j ≠ i → (s.frames.getD j emptyFrame).pid ≠ p) →
        p ≠ INVALID_PAGE_ID → p < s.disk.next_page_id →
        p < s.disk.slots.length → s.disk.slots.getD p [] = zeroPage →
        PoisonInv (BufferPool.evict_frame ok s i).2 p)
    ∧ (∀ ops, PoisonInv s p → PoisonInv (applyOps ok ops s) p)
    ∧ (PoisonInv s p →
        ((BufferPool.fetch_page ok s p).1 = .error .NoAvailableFrames
          ∨ (BufferPool.fetch_page ok s p).1 = .error .ChecksumMismatch)
        ∧ ∀ fid, (BufferPool.fetch_page ok s p).1 ≠ .ok fid) := by
  refine ⟨pageStoredChecksum_zeroPage, ?_, ?_, ?_⟩
  · intro i hd hpid huniq hh1 hh2 hh3 hh4
    exact evict_clean_poison ok s i p hd hpid huniq hh1 hh2 hh3 hh4
  · intro ops h
    exact applyOps_poison ok p Hcrc ops s h
  · intro h
    have hf := fetch_page_poison ok s p h Hcrc
    refine ⟨hf.1, ?_⟩
    intro fid hok
    cases hf.1 with
    | inl he => rw [he] at hok; exact Except.noConfusion hok
    | inr he => rw [he] at hok; exact Except.noConfusion hok

/-- All stream writes succeed in the counterexample run. -/
def c9Ok : Nat → Bool := fun _ => true

/-- A one-frame pool over an empty data file. -/
def c9Init : PoolState :=
  { pool_size := 1
    frames := [emptyFrame]
    free_list := [0]
    page_table := []
    clock_hand := 0
    dirty_count := 0
    disk := { slots := [], next_page_id := 0 } }

/-- The run of the claim's scenario: page 0 is created by `new_page`,
unpinned clean, and evicted clean by the next `new_page` (which pins
page 1 in the only frame). -/
def c9Run : PoolState :=
  applyOps c9Ok [PoolOp.newPage, PoolOp.unpin 0 false, PoolOp.newPage] c9Init

/-- C9 (counterexample): in the scenario of the claim the subsequent
`fetch_page(0)` does fail, but with `NoAvailableFrames` - the only frame
is pinned by page 1, so no victim exists and the checksum check is never
reached - not with the claimed `ChecksumMismatch`. -/
theorem c9_fetch_not_always_checksum_mismatch :
    (BufferPool.new_page c9Ok c9Init).1 = .ok 0
    ∧ (BufferPool.fetch_page c9Ok c9Run 0).1 = .error .NoAvailableFrames
    ∧ (BufferPool.fetch_page c9Ok c9Run 0).1 ≠ .error .ChecksumMismatch := by
  refine ⟨by decide, by decide, by decide⟩

/-- Witness instantiating `c9_clean_evicted_new_page_unfetchable` at
page 0 on the concrete one-frame pool: the zeroed slot image hashes to
0x603B0489 ≠ 0, so the hypothesis holds. -/
theorem c9_clean_evicted_new_page_unfetchable_witness :
    pageComputeChecksum (setBytes zeroPage 0 (writeLE 0 4)) ≠ 0
    ∧ (pageStoredChecksum zeroPage = 0
      ∧ (∀ i,
          (c9Init.frames.getD i emptyFrame).dirty = false →
          (c9Init.frames.getD i emptyFrame).pid = 0 →
          (∀ j, j ≠ i → (c9Init.frames.getD j emptyFrame).pid ≠ 0) →
          0 ≠ INVALID_PAGE_ID → 0 < c9Init.disk.next_page_id →
          0 < c9Init.disk.slots.length →
          c9Init.disk.slots.getD 0 [] = zeroPage →
          PoisonInv (BufferPool.evict_frame c9Ok c9Init i).2 0)
      ∧ (∀ ops, PoisonInv c9Init 0 → PoisonInv (applyOps c9Ok ops c9Init) 0)
      ∧ (PoisonInv c9Init 0 →
          ((BufferPool.fetch_page c9Ok c9Init 0).1
              = .error .NoAvailableFrames
            ∨ (BufferPool.fetch_page c9Ok c9Init 0).1
              = .error .ChecksumMismatch)
          ∧ ∀ fid, (BufferPool.fetch_page c9Ok c9Init 0).1 ≠ .ok fid)) :=
  ⟨by rw [setBytes_zeroPage_id0, pageComputeChecksum_zeroPage]; decide,
   c9_clean_evicted_new_page_unfetchable c9Ok c9Init 0
     (by rw [setBytes_zeroPage_id0, pageComputeChecksum_zeroPage]; decide)⟩

end DatyreDB
